import Mathlib

/-!
Boids-SDL: coordinate bookkeeping, scene construction, input broadcast and frame pacing

A shallow embedding of `src/states/base_state.cpp` and `src/states/boids_state.cpp`.

Conventions of the embedding:
* `float` values are rationals (`ℚ`); arithmetic on them is exact, except in the namespace
  `Binary32`, which gives the coordinate transforms and the position mutators with every
  `float` operation rounded to binary32 (`round32`): rounding decides the integer pixel a
  coordinate maps to;
* `int` values are integers (`ℤ`); `static_cast<int>` of a `float` is truncation toward zero;
* an `Eigen::Array2f` / `Eigen::Array2i` is a pair, its operations are component-wise;
* an object's `state` pointer becomes an explicit `BaseState` argument.
-/

namespace BoidsSDL

/-! ## Data model -/

/-- Conversion `static_cast<int>(float)`: the fractional part is discarded (truncation toward
zero). -/
def castInt (q : ℚ) : ℤ := if 0 ≤ q then ⌊q⌋ else ⌈q⌉

/-- The fields of `BaseState` that world objects and entity logic read through their `state`
pointer, and the flags and registers written by `handleUserInput`. -/
structure BaseState where
  /-- loop flag tested by `run` -/
  active : Bool
  /-- register holding the key code of the key-down event being dispatched -/
  keyDown : ℤ
  /-- register holding the key code of the key-up event being dispatched -/
  keyUp : ℤ
  /-- register holding the button of the mouse-down event being dispatched -/
  mouseDown : ℕ
  /-- register holding the button of the mouse-up event being dispatched -/
  mouseUp : ℕ
  /-- window size in pixels, read once by `SDL_GetWindowSize` -/
  pixelSize : ℤ × ℤ
  /-- world size in world units -/
  worldSize : ℚ × ℚ
  /-- normalized delta time of the last frame -/
  worldDt : ℚ
  /-- live key-state table, indexed by scancode -/
  keystates : ℕ → Bool

/-- Rectangle `SDL_Rect`. -/
structure SDL_Rect where
  x : ℤ
  y : ℤ
  w : ℤ
  h : ℤ
deriving DecidableEq

/-- The data members of `BaseWorldObject`. -/
structure BaseWorldObject where
  rect : SDL_Rect
  worldPosition : ℚ × ℚ
  pixelPosition : ℤ × ℤ
deriving DecidableEq

/-- Component `dim` of a two-element array (`operator[]`, `dim` is 0 or 1). -/
def idx {α : Type} (a : α × α) (dim : Fin 2) : α := if dim = 0 then a.1 else a.2

namespace BaseWorldObject

/-! ## Coordinate transforms (`base_state.cpp` 165-191) -/

/-- Scalar `worldToPixel(float unit, int dim)`. -/
def worldToPixel (state : BaseState) (unit : ℚ) (dim : Fin 2) : ℤ :=
  castInt ((unit / idx state.worldSize dim) * ((idx state.pixelSize dim : ℤ) : ℚ))

/-- Array `worldToPixel(Eigen::Array2f units)`. -/
def worldToPixelV (state : BaseState) (units : ℚ × ℚ) : ℤ × ℤ :=
  (castInt ((units.1 / state.worldSize.1) * (state.pixelSize.1 : ℚ)),
   castInt ((units.2 / state.worldSize.2) * (state.pixelSize.2 : ℚ)))

/-- Scalar `pixelToWorld(int pixel, int dim)`. -/
def pixelToWorld (state : BaseState) (pixel : ℤ) (dim : Fin 2) : ℚ :=
  ((pixel : ℚ) / ((idx state.pixelSize dim : ℤ) : ℚ)) * idx state.worldSize dim

/-- Array `pixelToWorld(Eigen::Array2i pixels)`. -/
def pixelToWorldV (state : BaseState) (pixels : ℤ × ℤ) : ℚ × ℚ :=
  (((pixels.1 : ℚ) / (state.pixelSize.1 : ℚ)) * state.worldSize.1,
   ((pixels.2 : ℚ) / (state.pixelSize.2 : ℚ)) * state.worldSize.2)

/-! ## Position mutators (`base_state.cpp` 194-267) -/

/-- Method `updateWorldPosition()`: re-derive the pixel position and the rect origin. -/
def updateWorldPosition (state : BaseState) (o : BaseWorldObject) : BaseWorldObject :=
  let pp := worldToPixelV state o.worldPosition
  { o with pixelPosition := pp, rect := { o.rect with x := pp.1, y := pp.2 } }

/-- Method `updateWorldPosition(float x, float y)`. -/
def updateWorldPositionXY (state : BaseState) (o : BaseWorldObject) (x y : ℚ) :
    BaseWorldObject :=
  updateWorldPosition state { o with worldPosition := (x, y) }

/-- Method `updateWorldPosition(Eigen::Array2f units)`. -/
def updateWorldPositionV (state : BaseState) (o : BaseWorldObject) (units : ℚ × ℚ) :
    BaseWorldObject :=
  updateWorldPosition state { o with worldPosition := units }

/-- Method `updatePixelPosition()`: re-derive the world position, copy the pixel position into
the rect origin. -/
def updatePixelPosition (state : BaseState) (o : BaseWorldObject) : BaseWorldObject :=
  { o with worldPosition := pixelToWorldV state o.pixelPosition,
           rect := { o.rect with x := o.pixelPosition.1, y := o.pixelPosition.2 } }

/-- Method `updatePixelPosition(int x, int y)`. -/
def updatePixelPositionXY (state : BaseState) (o : BaseWorldObject) (x y : ℤ) :
    BaseWorldObject :=
  updatePixelPosition state { o with pixelPosition := (x, y) }

/-- Method `updatePixelPositionX(int x)`. -/
def updatePixelPositionX (state : BaseState) (o : BaseWorldObject) (x : ℤ) : BaseWorldObject :=
  updatePixelPosition state { o with pixelPosition := (x, o.pixelPosition.2) }

/-- Method `updatePixelPositionY(int y)`. -/
def updatePixelPositionY (state : BaseState) (o : BaseWorldObject) (y : ℤ) : BaseWorldObject :=
  updatePixelPosition state { o with pixelPosition := (o.pixelPosition.1, y) }

/-! ## Constructors (`base_state.cpp` 123-148)

The members are not initialised before the constructor body runs; every member is assigned by
the body, so the embedding starts from an all-zero object. -/

/-- Constructor `BaseWorldObject(BaseState *state, float x, float y, int w, int h)`: the body
sets `rect.w`, `rect.h` and then calls `updateWorldPosition(w, h)`. -/
def newWorld (state : BaseState) (_x _y : ℚ) (w h : ℤ) : BaseWorldObject :=
  let o : BaseWorldObject :=
    { rect := { x := 0, y := 0, w := w, h := h }, worldPosition := (0, 0), pixelPosition := (0, 0) }
  updateWorldPositionXY state o (w : ℚ) (h : ℚ)

/-- Constructor `BaseWorldObject(BaseState *state, int x, int y, int w, int h)`: the body sets
`rect.w`, `rect.h` and then calls `updatePixelPosition(x, y)`. -/
def newPixel (state : BaseState) (x y : ℤ) (w h : ℤ) : BaseWorldObject :=
  let o : BaseWorldObject :=
    { rect := { x := 0, y := 0, w := w, h := h }, worldPosition := (0, 0), pixelPosition := (0, 0) }
  updatePixelPositionXY state o x y

/-- Constructor `BaseWorldObject(BaseState *state)`: zero-sized rect, then
`updateWorldPosition(0,0)`. -/
def newDefault (state : BaseState) : BaseWorldObject :=
  let o : BaseWorldObject :=
    { rect := { x := 0, y := 0, w := 0, h := 0 }, worldPosition := (0, 0), pixelPosition := (0, 0) }
  updateWorldPositionXY state o 0 0

end BaseWorldObject


/-- A state with an 800 x 600 window and a 2000 x 1500 world, used in the worked examples. -/
def sampleState : BaseState :=
  { active := true, keyDown := 0, keyUp := 0, mouseDown := 0, mouseUp := 0,
    pixelSize := (800, 600), worldSize := (2000, 1500), worldDt := 1,
    keystates := fun _ => false }

/-- Modelled from the spec: `pymod` of `include/utils.hpp`, which is not among the sources. The
spec wraps a coordinate "via modulo arithmetic onto the opposite edge" (pixel 805 in a window of
width 800 becomes 5); the name says Python's `%`, the remainder of floored division. -/
def pymod (a b : ℤ) : ℤ := Int.fmod a b

/-- Scancode `SDL_SCANCODE_A` of SDL2. -/
def SDL_SCANCODE_A : ℕ := 4
/-- Scancode `SDL_SCANCODE_D` of SDL2. -/
def SDL_SCANCODE_D : ℕ := 7
/-- Scancode `SDL_SCANCODE_S` of SDL2. -/
def SDL_SCANCODE_S : ℕ := 22
/-- Scancode `SDL_SCANCODE_W` of SDL2. -/
def SDL_SCANCODE_W : ℕ := 26
/-- Scancode `SDL_SCANCODE_SPACE` of SDL2. -/
def SDL_SCANCODE_SPACE : ℕ := 44

/-- Class `Squareboy`: a world object with a velocity, an acceleration and a flag. -/
structure Squareboy extends BaseWorldObject where
  velocity : ℚ × ℚ
  acceleration : ℚ × ℚ
  spacemode : Bool
deriving DecidableEq

namespace Squareboy

/-- Constructor `Squareboy(state, x, y, w, h)`: the world-space base constructor, zero velocity
and acceleration. -/
def new (state : BaseState) (x y : ℚ) (w h : ℤ) : Squareboy :=
  { toBaseWorldObject := BaseWorldObject.newWorld state x y w h,
    velocity := (0, 0), acceleration := (0, 0), spacemode := false }

/-- Method `interactUser()`: keys A/D/W/S give unit acceleration components, SPACE scales the
acceleration by 5, then the acceleration is integrated into the velocity. -/
def interactUser (state : BaseState) (s : Squareboy) : Squareboy :=
  let keys := state.keystates
  let a0 : ℚ × ℚ := (0, 0)
  let a1 := if keys SDL_SCANCODE_A then (a0.1 - 1, a0.2) else a0
  let a2 := if keys SDL_SCANCODE_D then (a1.1 + 1, a1.2) else a1
  let a3 := if keys SDL_SCANCODE_W then (a2.1, a2.2 - 1) else a2
  let a4 := if keys SDL_SCANCODE_S then (a3.1, a3.2 + 1) else a3
  let a5 := if keys SDL_SCANCODE_SPACE then (a4.1 * 5, a4.2 * 5) else a4
  { s with acceleration := a5,
           velocity := (s.velocity.1 + a5.1 * state.worldDt, s.velocity.2 + a5.2 * state.worldDt) }

/-- Method `behave()`: wrap the pixel x coordinate when it is outside `[0, pixelSize[0]]`,
otherwise wrap the pixel y coordinate when it is outside `[0, pixelSize[1]]`. -/
def behave (state : BaseState) (s : Squareboy) : Squareboy :=
  if s.pixelPosition.1 < 0 ∨ s.pixelPosition.1 > state.pixelSize.1 then
    let x := pymod s.pixelPosition.1 state.pixelSize.1
    { s with toBaseWorldObject := BaseWorldObject.updatePixelPositionX state s.toBaseWorldObject x }
  else if s.pixelPosition.2 < 0 ∨ s.pixelPosition.2 > state.pixelSize.2 then
    let y := pymod s.pixelPosition.2 state.pixelSize.2
    { s with toBaseWorldObject := BaseWorldObject.updatePixelPositionY state s.toBaseWorldObject y }
  else s

/-- Method `motion()`: damp the velocity, then advance the world position by the new velocity. -/
def motion (state : BaseState) (s : Squareboy) : Squareboy :=
  let v : ℚ × ℚ := (s.velocity.1 - s.velocity.1 * (1 / 10) * state.worldDt,
                   s.velocity.2 - s.velocity.2 * (1 / 10) * state.worldDt)
  let p : ℚ × ℚ := (s.worldPosition.1 + v.1 * state.worldDt,
                   s.worldPosition.2 + v.2 * state.worldDt)
  { s with velocity := v,
           toBaseWorldObject := BaseWorldObject.updateWorldPositionV state s.toBaseWorldObject p }

/-- Method `update()`. -/
def update (state : BaseState) (s : Squareboy) : Squareboy :=
  motion state (behave state (interactUser state s))

end Squareboy

/-- An entity of the 800 x 600 / 2000 x 1500 state that has left the window on the right: pixel
position `(805, 300)`, moving with velocity `(3, -2)`. -/
def strayBoy : Squareboy :=
  { toBaseWorldObject :=
      { rect := { x := 805, y := 300, w := 20, h := 20 },
        worldPosition := (4025 / 2, 750), pixelPosition := (805, 300) },
    velocity := (3, -2), acceleration := (0, 0), spacemode := false }

/-! ## Boids scene (`boids_state.cpp` 92-128) -/

/-- Exceptions thrown by the program. -/
inductive Exception where
  | invalid_argument (what : String)
deriving DecidableEq

/-- Class `Boids`: the `BaseState` part and the entity list (insertion order). -/
structure Boids where
  state : BaseState
  entities : List Squareboy

namespace Boids

/-- The 5 x 5 loop "Grid of squarebois": `i` outer, `j` inner, appended in that order. -/
def grid (state : BaseState) : List Squareboy :=
  (List.range 5).flatMap fun i =>
    (List.range 5).map fun j =>
      Squareboy.new state (((100 + (i : ℤ) * 50 : ℤ)) : ℚ) (((100 + (j : ℤ) * 50 : ℤ)) : ℚ) 20 20

/-- Constructor `Boids(window, renderer, event, worldWidth, worldHeight)`; `base` is the state
left by the `BaseState` constructor (it holds the window's `pixelSize`). -/
def new (base : BaseState) (worldWidth worldHeight : ℚ) : Except Exception Boids :=
  if worldHeight = -1 ∧ worldWidth = -1 then
    .error (.invalid_argument "worldHeight and worldWidth cannot both be -1 stoopid")
  else
    let size : ℚ × ℚ :=
      if worldHeight = -1 then
        let unitPerPixel := worldWidth / (base.pixelSize.1 : ℚ)
        (worldWidth, unitPerPixel * (base.pixelSize.2 : ℚ))
      else if worldWidth = -1 then
        let unitPerPixel := worldHeight / (base.pixelSize.2 : ℚ)
        (unitPerPixel * (base.pixelSize.1 : ℚ), worldHeight)
      else (worldWidth, worldHeight)
    let state : BaseState := { base with worldSize := size }
    .ok { state := state, entities := grid state }

end Boids

/-! ## Clock (`base_state.cpp` 13-20)

`SDL_GetTicks` is a millisecond counter that never decreases (and is taken not to wrap);
`SDL_Delay(n)` blocks for at least `n` milliseconds. -/

/-- The data members of `Clock` (milliseconds, except `targetFps`). -/
structure Clock where
  targetFps : ℕ
  targetFrameTime : ℕ
  dt : ℕ
  prevTime : ℕ
  frameTime : ℕ
deriving DecidableEq

/-- What the platform timer does during one `fpsControll` call. -/
structure TimerRun where
  /-- value returned by the first `SDL_GetTicks()` -/
  t1 : ℕ
  /-- how much longer than requested `SDL_Delay` blocks, if it is called -/
  oversleep : ℕ
  /-- time passing before the second `SDL_GetTicks()` -/
  lag2 : ℕ
  /-- time passing between the second and the third `SDL_GetTicks()` -/
  lag3 : ℕ

namespace Clock

/-- Method `fpsControll()`. Returns the new clock and the argument of the `SDL_Delay` call, if
one is made. -/
def fpsControll (c : Clock) (env : TimerRun) : Clock × Option ℕ :=
  let dt := env.t1 - c.prevTime
  let delay : Option ℕ := if dt < c.targetFrameTime then some (c.targetFrameTime - dt) else none
  let resumed := match delay with
    | some n => env.t1 + n + env.oversleep
    | none => env.t1
  let t2 := resumed + env.lag2
  let t3 := t2 + env.lag3
  ({ c with dt := dt, frameTime := t2 - c.prevTime, prevTime := t3 }, delay)

end Clock

/-! ## Input broadcast (`base_state.cpp` 37-96) -/

/-- Key code `SDLK_F4` of SDL2: scancode 61 with bit 30 set. -/
def SDLK_F4 : ℤ := 1073741885
/-- Key code `SDLK_LALT` of SDL2: scancode 226 with bit 30 set. -/
def SDLK_LALT : ℤ := 1073742050
/-- Modifier bit `KMOD_LALT` of SDL2 (`0x0100`). -/
def KMOD_LALT : ℕ := 256

/-- The events `SDL_PollEvent` can deliver, as far as `handleUserInput` tells them apart. The
`mod` field of a keyboard event is a `Uint16`. -/
inductive SDL_Event where
  | quit
  | keyDown (sym : ℤ) (mod : ℕ)
  | keyUp (sym : ℤ) (mod : ℕ)
  | mouseButtonDown (button : ℕ)
  | mouseButtonUp (button : ℕ)
  | other (type : ℕ)
deriving DecidableEq

/-- One call of a listener method, with its argument. -/
inductive Callback where
  | onKeyDown (key : ℤ)
  | onKeyUp (key : ℤ)
  | onMouseDown (button : ℕ)
  | onMouseUp (button : ℕ)
deriving DecidableEq

/-- Interface `StateEventListener`. A callback may change the `active` flag and the scene state
`σ` (everything else the listener can reach); the event registers of `BaseState` are written by
`handleUserInput` only. -/
structure StateEventListener (σ : Type) where
  onKeyDown : ℤ → Bool × σ → Bool × σ
  onKeyUp : ℤ → Bool × σ → Bool × σ
  onMouseDown : ℕ → Bool × σ → Bool × σ
  onMouseUp : ℕ → Bool × σ → Bool × σ

/-- The program state seen by the input loop: the `BaseState`, the scene state, and the log of
listener calls made so far (listener index in registration order, call). -/
structure Frame (σ : Type) where
  state : BaseState
  scene : σ
  calls : List (ℕ × Callback)

/-- Method `addInputEventListener`: `emplace_back` on the listener vector. -/
def addInputEventListener {σ : Type} (listeners : List (StateEventListener σ))
    (listener : StateEventListener σ) : List (StateEventListener σ) :=
  listeners ++ [listener]

/-- Run the listener method named by `cb`. -/
def StateEventListener.call {σ : Type} (l : StateEventListener σ) (cb : Callback) :
    Bool × σ → Bool × σ :=
  match cb with
  | .onKeyDown key => l.onKeyDown key
  | .onKeyUp key => l.onKeyUp key
  | .onMouseDown button => l.onMouseDown button
  | .onMouseUp button => l.onMouseUp button

/-- One iteration of a `for (StateEventListener *listener : *inputEventListeners)` loop: call the
listener (number `i`) and log the call. -/
def invoke {σ : Type} (l : StateEventListener σ) (i : ℕ) (cb : Callback) (fr : Frame σ) :
    Frame σ :=
  let r := l.call cb (fr.state.active, fr.scene)
  { state := { fr.state with active := r.1 }, scene := r.2, calls := fr.calls ++ [(i, cb)] }

/-- The loop `for (StateEventListener *listener : *inputEventListeners)` from listener number
`i` on. -/
def broadcastFrom {σ : Type} (cb : Callback) :
    ℕ → List (StateEventListener σ) → Frame σ → Frame σ
  | _, [], fr => fr
  | i, l :: ls, fr => broadcastFrom cb (i + 1) ls (invoke l i cb fr)

/-- The body of the `switch (event->type)` of `handleUserInput` for one polled event. -/
def handleEvent {σ : Type} (listeners : List (StateEventListener σ)) (e : SDL_Event)
    (fr : Frame σ) : Frame σ :=
  match e with
  | .quit => { fr with state := { fr.state with active := false } }
  | .keyDown sym mod =>
    let st1 : BaseState := { fr.state with keyDown := sym }
    let st2 : BaseState :=
      if st1.keyDown = SDLK_F4 then
        if ((mod % 65536 : ℕ) : ℤ) = SDLK_LALT then { st1 with active := false } else st1
      else st1
    broadcastFrom (.onKeyDown st2.keyDown) 0 listeners { fr with state := st2 }
  | .keyUp sym _ =>
    let st1 : BaseState := { fr.state with keyUp := sym }
    broadcastFrom (.onKeyUp st1.keyUp) 0 listeners { fr with state := st1 }
  | .mouseButtonDown button =>
    let st1 : BaseState := { fr.state with mouseDown := button }
    broadcastFrom (.onMouseDown st1.mouseDown) 0 listeners { fr with state := st1 }
  | .mouseButtonUp button =>
    let st1 : BaseState := { fr.state with mouseUp := button }
    broadcastFrom (.onMouseUp st1.mouseUp) 0 listeners { fr with state := st1 }
  | .other _ => fr

/-- Method `handleUserInput()`: `while (SDL_PollEvent(event) > 0)` drains the pending events in
arrival order. -/
def handleUserInput {σ : Type} (listeners : List (StateEventListener σ)) :
    List SDL_Event → Frame σ → Frame σ
  | [], fr => fr
  | e :: es, fr => handleUserInput listeners es (handleEvent listeners e fr)

/-- The listener call an event stands for, in the words of the specification: key-down, key-up,
mouse-down and mouse-up events have one, a quit signal and other event types have none. -/
def callbackOf : SDL_Event → Option Callback
  | .keyDown sym _ => some (.onKeyDown sym)
  | .keyUp sym _ => some (.onKeyUp sym)
  | .mouseButtonDown button => some (.onMouseDown button)
  | .mouseButtonUp button => some (.onMouseUp button)
  | .quit => none
  | .other _ => none

/-- The calls the specification expects for one event with `n` listeners registered: the event's
call on listener 0, 1, ..., `n - 1`. -/
def fanOut (n : ℕ) (e : SDL_Event) : List (ℕ × Callback) :=
  match callbackOf e with
  | none => []
  | some cb => (List.range n).map fun i => (i, cb)

/-- A listener that changes nothing. -/
def idleListener : StateEventListener Unit :=
  { onKeyDown := fun _ w => w, onKeyUp := fun _ w => w,
    onMouseDown := fun _ w => w, onMouseUp := fun _ w => w }

/-- The frame of the 800 x 600 / 2000 x 1500 state with an empty call log. -/
def sampleFrame : Frame Unit := { state := sampleState, scene := (), calls := [] }

/-! ## Clock construction (`base_state.cpp` 9-11, 22-26) -/

/-- How a computation can end without a result: a C++ exception is thrown, or an integer is
divided by zero (undefined behaviour; no exception is thrown). -/
inductive Fault where
  | thrown (e : Exception)
  | divisionByZero
deriving DecidableEq

/-- Constructor `Clock(Uint8 targetFps)`: `targetFrameTime(1000 / targetFps)`,
`dt(targetFrameTime)`, `prevTime(SDL_GetTicks())`; `ticks` is the counter value read. The
parameter is an unsigned 8-bit value. The member `frameTime` is not initialised by the constructor
(`fpsControll` writes it before it is read); the embedding starts it at 0. -/
def Clock.new (targetFps : ℕ) (ticks : ℕ) : Except Fault Clock :=
  let fps := targetFps % 256
  if fps = 0 then .error .divisionByZero
  else .ok { targetFps := fps, targetFrameTime := 1000 / fps, dt := 1000 / fps,
             prevTime := ticks, frameTime := 0 }

/-- Member initialiser `clock(Clock(config["targetFps"].get<int>()))` of the `BaseState`
constructor: the configured `int` is converted to the `Uint8` parameter, that is reduced
modulo 256. -/
def BaseState.initClock (targetFps : ℤ) (ticks : ℕ) : Except Fault Clock :=
  Clock.new (targetFps % 256).toNat ticks

/-- A timer run in which no time passes and the delay is exact. -/
def idleTimer (t : ℕ) : TimerRun := { t1 := t, oversleep := 0, lag2 := 0, lag3 := 0 }

/-! ## Game loop (`base_state.cpp` 104-121, `boids_state.cpp` 153-174) -/

/-- Method `Boids::logic()`: update every entity, in insertion order. -/
def Boids.logic (state : BaseState) (entities : List Squareboy) : List Squareboy :=
  entities.map (Squareboy.update state)

/-- Method `Boids::update()`: `interactUser()` is empty, `logic()` updates the entities and
`updateGraphics()` only draws. -/
def Boids.update (state : BaseState) (entities : List Squareboy) : List Squareboy :=
  Boids.logic state entities

/-- What the platform delivers during one iteration of `run`: the events pending at the poll and
the behaviour of the timer during `fpsControll`. -/
structure Tick where
  events : List SDL_Event
  timer : TimerRun

/-- The program state of the loop: the frame, the clock, and counters of the `update()` and
`fpsControll()` calls made so far. -/
structure Loop (σ : Type) where
  frame : Frame σ
  clock : Clock
  updates : ℕ
  ticks : ℕ

/-- Method `activate()`. -/
def activate {σ : Type} (p : Loop σ) : Loop σ :=
  { p with frame := { p.frame with state := { p.frame.state with active := true } } }

/-- The quotient `clock.frameTime / clock.targetFrameTime` assigned to `worldDt`: an integer
division of the clock's unsigned members. -/
def worldDtOf (c : Clock) : Except Fault ℚ :=
  if c.targetFrameTime = 0 then .error .divisionByZero
  else .ok ((c.frameTime / c.targetFrameTime : ℕ) : ℚ)

/-- Body of the loop `while (active)` of `run`: poll the input, call the scene's `update()` (it
reads the state and changes the scene, as `Boids::update` does), tick the clock, recompute
`worldDt`. -/
def iteration {σ : Type} (listeners : List (StateEventListener σ)) (update : BaseState → σ → σ)
    (inp : Tick) (p : Loop σ) : Except Fault (Loop σ) :=
  let fr := handleUserInput listeners inp.events p.frame
  let scene := update fr.state fr.scene
  let c := (p.clock.fpsControll inp.timer).1
  match worldDtOf c with
  | .error f => .error f
  | .ok dt =>
    .ok { frame := { state := { fr.state with worldDt := dt }, scene := scene, calls := fr.calls },
          clock := c, updates := p.updates + 1, ticks := p.ticks + 1 }

/-- The loop `while (active)` of `run`, fed with the platform's behaviour for the coming
iterations. The result is `none` when the supplied iterations are used up and the flag is still
set (the loop is still running). -/
def runLoop {σ : Type} (listeners : List (StateEventListener σ)) (update : BaseState → σ → σ) :
    List Tick → Loop σ → Except Fault (Option (Loop σ))
  | [], p => .ok (if p.frame.state.active then none else some p)
  | inp :: rest, p =>
    if p.frame.state.active then
      match iteration listeners update inp p with
      | .error f => .error f
      | .ok q => runLoop listeners update rest q
    else .ok (some p)

/-- Method `run()`: `activate()`, then the loop. -/
def run {σ : Type} (listeners : List (StateEventListener σ)) (update : BaseState → σ → σ)
    (inputs : List Tick) (p : Loop σ) : Except Fault (Option (Loop σ)) :=
  runLoop listeners update inputs (activate p)

/-- A listener's callbacks do not write the active flag. -/
def Quiet {σ : Type} (l : StateEventListener σ) : Prop :=
  ∀ (cb : Callback) (w : Bool × σ), (l.call cb w).1 = w.1

/-- A loop state before `run`: the sample frame, a clock built for 60 frames per second at
counter value 100, no calls made yet. -/
def sampleLoop : Loop Unit :=
  { frame := sampleFrame,
    clock := { targetFps := 60, targetFrameTime := 16, dt := 16, prevTime := 100, frameTime := 0 },
    updates := 0, ticks := 0 }

/-- An entity of the 800 x 600 / 2000 x 1500 state that has left the window on both axes: pixel
position `(805, 700)`. -/
def lostBoy : Squareboy :=
  { toBaseWorldObject :=
      { rect := { x := 805, y := 700, w := 20, h := 20 },
        worldPosition := (4025 / 2, 1750), pixelPosition := (805, 700) },
    velocity := (0, 0), acceleration := (0, 0), spacemode := false }

/-- The value `[K]` of the specification: 1 if the key is held, 0 otherwise. -/
def held (b : Bool) : ℚ := if b then 1 else 0

/-! ## The transforms and mutators in binary32 arithmetic (`base_state.cpp` 165-267)

The same functions with every `float` operation rounded as the hardware does. -/

/-- Round to the nearest integer, ties to the even one. -/
def roundHalfEven (x : ℚ) : ℤ :=
  if x - (⌊x⌋ : ℚ) < 1 / 2 then ⌊x⌋
  else if 1 / 2 < x - (⌊x⌋ : ℚ) then ⌊x⌋ + 1
  else if ⌊x⌋ % 2 = 0 then ⌊x⌋ else ⌊x⌋ + 1

/-- Rounding of a value to `float` (IEEE 754 binary32, round to nearest, ties to even): 24
significant bits; below `2 ^ (-126)` the spacing stays `2 ^ (-149)`. Magnitudes beyond the
finite range of binary32 (overflow to infinity) are not modelled. -/
def round32 (q : ℚ) : ℚ :=
  (roundHalfEven (q / (2 : ℚ) ^ (max (Int.log 2 |q|) (-126) - 23)) : ℚ)
    * (2 : ℚ) ^ (max (Int.log 2 |q|) (-126) - 23)

namespace Binary32

/-- Scalar `worldToPixel(float unit, int dim)`: float division, conversion of the `int` pixel
size to `float`, float multiplication, truncating cast. -/
def worldToPixel (state : BaseState) (unit : ℚ) (dim : Fin 2) : ℤ :=
  castInt (round32 (round32 (unit / idx state.worldSize dim)
    * round32 ((idx state.pixelSize dim : ℤ) : ℚ)))

/-- Array `worldToPixel(Eigen::Array2f units)`, coefficient by coefficient. -/
def worldToPixelV (state : BaseState) (units : ℚ × ℚ) : ℤ × ℤ :=
  (castInt (round32 (round32 (units.1 / state.worldSize.1) * round32 (state.pixelSize.1 : ℚ))),
   castInt (round32 (round32 (units.2 / state.worldSize.2) * round32 (state.pixelSize.2 : ℚ))))

/-- Scalar `pixelToWorld(int pixel, int dim)`: conversion of both `int`s to `float`, float
division, float multiplication. -/
def pixelToWorld (state : BaseState) (pixel : ℤ) (dim : Fin 2) : ℚ :=
  round32 (round32 (round32 (pixel : ℚ) / round32 ((idx state.pixelSize dim : ℤ) : ℚ))
    * idx state.worldSize dim)

/-- Array `pixelToWorld(Eigen::Array2i pixels)`, coefficient by coefficient. -/
def pixelToWorldV (state : BaseState) (pixels : ℤ × ℤ) : ℚ × ℚ :=
  (round32 (round32 (round32 (pixels.1 : ℚ) / round32 (state.pixelSize.1 : ℚ))
      * state.worldSize.1),
   round32 (round32 (round32 (pixels.2 : ℚ) / round32 (state.pixelSize.2 : ℚ))
      * state.worldSize.2))

/-- Method `updateWorldPosition()`. -/
def updateWorldPosition (state : BaseState) (o : BaseWorldObject) : BaseWorldObject :=
  let pp := worldToPixelV state o.worldPosition
  { o with pixelPosition := pp, rect := { o.rect with x := pp.1, y := pp.2 } }

/-- Method `updateWorldPosition(float x, float y)`. -/
def updateWorldPositionXY (state : BaseState) (o : BaseWorldObject) (x y : ℚ) :
    BaseWorldObject :=
  updateWorldPosition state { o with worldPosition := (x, y) }

/-- Method `updateWorldPosition(Eigen::Array2f units)`. -/
def updateWorldPositionV (state : BaseState) (o : BaseWorldObject) (units : ℚ × ℚ) :
    BaseWorldObject :=
  updateWorldPosition state { o with worldPosition := units }

/-- Method `updatePixelPosition()`. -/
def updatePixelPosition (state : BaseState) (o : BaseWorldObject) : BaseWorldObject :=
  { o with worldPosition := pixelToWorldV state o.pixelPosition,
           rect := { o.rect with x := o.pixelPosition.1, y := o.pixelPosition.2 } }

/-- Method `updatePixelPosition(int x, int y)`. -/
def updatePixelPositionXY (state : BaseState) (o : BaseWorldObject) (x y : ℤ) :
    BaseWorldObject :=
  updatePixelPosition state { o with pixelPosition := (x, y) }

/-- Method `updatePixelPositionX(int x)`. -/
def updatePixelPositionX (state : BaseState) (o : BaseWorldObject) (x : ℤ) : BaseWorldObject :=
  updatePixelPosition state { o with pixelPosition := (x, o.pixelPosition.2) }

/-- Method `updatePixelPositionY(int y)`. -/
def updatePixelPositionY (state : BaseState) (o : BaseWorldObject) (y : ℤ) : BaseWorldObject :=
  updatePixelPosition state { o with pixelPosition := (o.pixelPosition.1, y) }

end Binary32

/-! ## The broadcast in the words of the specification -/

/-- Registration of the listeners `regs`, one `addInputEventListener` call each, in the order
of the list. -/
def register {σ : Type} (regs : List (StateEventListener σ)) : List (StateEventListener σ) :=
  regs.foldl addInputEventListener []

/-- In the words of the specification, what one event does to the active flag and the scene when
the listeners `regs` were registered in that order: a key or mouse-button event runs its
callback on every listener in registration order, a quit signal clears the flag, any other event
does nothing. -/
def deliver {σ : Type} (regs : List (StateEventListener σ)) (e : SDL_Event) (w : Bool × σ) :
    Bool × σ :=
  match e with
  | .keyDown sym _ => regs.foldl (fun v l => l.onKeyDown sym v) w
  | .keyUp sym _ => regs.foldl (fun v l => l.onKeyUp sym v) w
  | .mouseButtonDown button => regs.foldl (fun v l => l.onMouseDown button v) w
  | .mouseButtonUp button => regs.foldl (fun v l => l.onMouseUp button v) w
  | .quit => (false, w.2)
  | .other _ => w

/-- The events of a queue delivered one after the other, in arrival order. -/
def deliverAll {σ : Type} (regs : List (StateEventListener σ)) (events : List SDL_Event)
    (w : Bool × σ) : Bool × σ :=
  events.foldl (fun v e => deliver regs e v) w

/-- A listener that appends its own name and the call it receives to the scene, a list of such
records. -/
def recorder (name : ℕ) : StateEventListener (List (ℕ × Callback)) :=
  { onKeyDown := fun key w => (w.1, w.2 ++ [(name, Callback.onKeyDown key)]),
    onKeyUp := fun key w => (w.1, w.2 ++ [(name, Callback.onKeyUp key)]),
    onMouseDown := fun button w => (w.1, w.2 ++ [(name, Callback.onMouseDown button)]),
    onMouseUp := fun button w => (w.1, w.2 ++ [(name, Callback.onMouseUp button)]) }

/-- The records the specification expects from the recorders `names` for one event: the event's
call, once per recorder, in registration order. -/
def expectedRecords (names : List ℕ) (e : SDL_Event) : List (ℕ × Callback) :=
  match callbackOf e with
  | none => []
  | some cb => names.map fun name => (name, cb)

namespace Binary32

end Binary32

/-! ## Lemmas on the cast and the transforms -/

theorem castInt_intCast (z : ℤ) : castInt (z : ℚ) = z := by
  unfold castInt
  split <;> simp

theorem castInt_of_nonneg {q : ℚ} (h : 0 ≤ q) : castInt q = ⌊q⌋ := by
  unfold castInt
  rw [if_pos h]

theorem worldToPixelV_eq (state : BaseState) (units : ℚ × ℚ) :
    BaseWorldObject.worldToPixelV state units =
      (BaseWorldObject.worldToPixel state units.1 0, BaseWorldObject.worldToPixel state units.2 1) := by
  simp [BaseWorldObject.worldToPixelV, BaseWorldObject.worldToPixel, idx]

theorem pixelToWorldV_eq (state : BaseState) (pixels : ℤ × ℤ) :
    BaseWorldObject.pixelToWorldV state pixels =
      (BaseWorldObject.pixelToWorld state pixels.1 0, BaseWorldObject.pixelToWorld state pixels.2 1) := by
  simp [BaseWorldObject.pixelToWorldV, BaseWorldObject.pixelToWorld, idx]

/-! ## Constructors -/

theorem castInt_eq_of_bounds {q : ℚ} {z : ℤ} (h0 : 0 ≤ q) (h1 : (z : ℚ) ≤ q)
    (h2 : q < (z : ℚ) + 1) : castInt q = z := by
  rw [castInt_of_nonneg h0]
  exact Int.floor_eq_iff.mpr ⟨h1, h2⟩

/-- The world-space constructor stores its size arguments as the world position, whatever
`x` and `y` are. -/
theorem newWorld_worldPosition (state : BaseState) (x y : ℚ) (w h : ℤ) :
    (BaseWorldObject.newWorld state x y w h).worldPosition = ((w : ℚ), (h : ℚ)) := rfl

/-- The pixel-space constructor: pixel position as given, world position derived from it, rect
origin at the pixel position, rect size as given. -/
theorem newPixel_spec (state : BaseState) (x y w h : ℤ) :
    (BaseWorldObject.newPixel state x y w h).pixelPosition = (x, y) ∧
    (BaseWorldObject.newPixel state x y w h).worldPosition =
      BaseWorldObject.pixelToWorldV state (x, y) ∧
    (BaseWorldObject.newPixel state x y w h).rect = { x := x, y := y, w := w, h := h } :=
  ⟨rfl, rfl, rfl⟩

/-- The default constructor: world origin, pixel origin, empty rect. -/
theorem newDefault_spec (state : BaseState) :
    (BaseWorldObject.newDefault state).worldPosition = (0, 0) ∧
    (BaseWorldObject.newDefault state).pixelPosition = (0, 0) ∧
    (BaseWorldObject.newDefault state).rect = { x := 0, y := 0, w := 0, h := 0 } := by
  simp [BaseWorldObject.newDefault, BaseWorldObject.updateWorldPositionXY,
    BaseWorldObject.updateWorldPosition, BaseWorldObject.worldToPixelV, castInt]

/-- C2 (code evaluated at the failing input): in the 800 x 600 / 2000 x 1500 state the
world-space constructor called with `x = 100, y = 100, w = 20, h = 20` yields world position
`(20, 20)` and pixel position `(8, 8)`, not `(100, 100)` and its image `(40, 40)`. -/
theorem newWorld_at_100_100 :
    (BaseWorldObject.newWorld sampleState 100 100 20 20).worldPosition = (20, 20) ∧
    (BaseWorldObject.newWorld sampleState 100 100 20 20).worldPosition ≠ (100, 100) ∧
    (BaseWorldObject.newWorld sampleState 100 100 20 20).pixelPosition = (8, 8) ∧
    BaseWorldObject.worldToPixelV sampleState (100, 100) = (40, 40) ∧
    (BaseWorldObject.newWorld sampleState 100 100 20 20).rect =
      { x := 8, y := 8, w := 20, h := 20 } := by
  have e8 : castInt (8 : ℚ) = 8 := castInt_intCast 8
  have e40 : castInt (40 : ℚ) = 40 := castInt_intCast 40
  have a1 : ((20 : ℤ) : ℚ) / 2000 * ((800 : ℤ) : ℚ) = 8 := by norm_num
  have a2 : ((20 : ℤ) : ℚ) / 1500 * ((600 : ℤ) : ℚ) = 8 := by norm_num
  have a3 : (100 : ℚ) / 2000 * ((800 : ℤ) : ℚ) = 40 := by norm_num
  have a4 : (100 : ℚ) / 1500 * ((600 : ℤ) : ℚ) = 40 := by norm_num
  refine ⟨by simp [BaseWorldObject.newWorld, BaseWorldObject.updateWorldPositionXY,
      BaseWorldObject.updateWorldPosition], ?_, ?_, ?_, ?_⟩
  · simp [BaseWorldObject.newWorld, BaseWorldObject.updateWorldPositionXY,
      BaseWorldObject.updateWorldPosition]
  · simp only [BaseWorldObject.newWorld, BaseWorldObject.updateWorldPositionXY,
      BaseWorldObject.updateWorldPosition, BaseWorldObject.worldToPixelV, sampleState, a1, a2, e8]
  · simp only [BaseWorldObject.worldToPixelV, sampleState, a3, a4, e40]
  · simp only [BaseWorldObject.newWorld, BaseWorldObject.updateWorldPositionXY,
      BaseWorldObject.updateWorldPosition, BaseWorldObject.worldToPixelV, sampleState, a1, a2, e8]

/-! ## World to pixel and back -/

theorem Boids_new_error (base : BaseState) (w h : ℚ) (hw : w = -1) (hh : h = -1) :
    Boids.new base w h =
      .error (.invalid_argument "worldHeight and worldWidth cannot both be -1 stoopid") := by
  simp [Boids.new, hw, hh]

theorem Boids_new_ok (base : BaseState) (w h : ℚ) (hne : ¬ (w = -1 ∧ h = -1)) :
    ∃ b, Boids.new base w h = .ok b ∧ b.state.pixelSize = base.pixelSize ∧
      b.state.worldSize =
        (if h = -1 then (w, w / (base.pixelSize.1 : ℚ) * (base.pixelSize.2 : ℚ))
         else if w = -1 then (h / (base.pixelSize.2 : ℚ) * (base.pixelSize.1 : ℚ), h)
         else (w, h)) := by
  have hne' : ¬ (h = -1 ∧ w = -1) := fun hc => hne ⟨hc.2, hc.1⟩
  refine ⟨_, by simp only [Boids.new, if_neg hne']; rfl, rfl, ?_⟩
  rfl

/-- C4: constructing the Boids scene fails, with `std::invalid_argument`, exactly when
`worldWidth = -1` and `worldHeight = -1`; in every other case it succeeds, keeps the window's
pixel size and sets `worldSize` (to the pair given, or with the missing axis derived). -/
theorem Boids_new_fails_iff (base : BaseState) (w h : ℚ) :
    ((∃ msg, Boids.new base w h = .error (.invalid_argument msg)) ↔ (w = -1 ∧ h = -1)) ∧
    ((∃ b, Boids.new base w h = .ok b ∧ b.state.pixelSize = base.pixelSize ∧
        b.state.worldSize =
          (if h = -1 then (w, w / (base.pixelSize.1 : ℚ) * (base.pixelSize.2 : ℚ))
           else if w = -1 then (h / (base.pixelSize.2 : ℚ) * (base.pixelSize.1 : ℚ), h)
           else (w, h))) ↔ ¬ (w = -1 ∧ h = -1)) := by
  by_cases hb : w = -1 ∧ h = -1
  · have herr := Boids_new_error base w h hb.1 hb.2
    refine ⟨⟨fun _ => hb, fun _ => ⟨_, herr⟩⟩, ⟨?_, fun hn => absurd hb hn⟩⟩
    rintro ⟨b, hok, _⟩
    rw [herr] at hok
    cases hok
  · obtain ⟨b, hok, hrest⟩ := Boids_new_ok base w h hb
    refine ⟨⟨?_, fun hc => absurd hc hb⟩, ⟨fun _ => hb, fun _ => ⟨b, hok, hrest⟩⟩⟩
    rintro ⟨msg, herr⟩
    rw [hok] at herr
    cases herr

/-- C5: for a positive pixel size, when exactly one of `worldWidth`, `worldHeight` is `-1` the
constructor keeps the given dimension and derives the other so that
`worldSize[0] * pixelSize[1] = worldSize[1] * pixelSize[0]`; when neither is `-1` the world size
is the pair given. -/
theorem Boids_new_aspect (base : BaseState) (w h : ℚ)
    (hpw : 0 < base.pixelSize.1) (hph : 0 < base.pixelSize.2) :
    (w ≠ -1 → h = -1 → ∃ b, Boids.new base w h = .ok b ∧ b.state.worldSize.1 = w ∧
      b.state.worldSize.1 * (base.pixelSize.2 : ℚ) = b.state.worldSize.2 * (base.pixelSize.1 : ℚ)) ∧
    (w = -1 → h ≠ -1 → ∃ b, Boids.new base w h = .ok b ∧ b.state.worldSize.2 = h ∧
      b.state.worldSize.1 * (base.pixelSize.2 : ℚ) = b.state.worldSize.2 * (base.pixelSize.1 : ℚ)) ∧
    (w ≠ -1 → h ≠ -1 → ∃ b, Boids.new base w h = .ok b ∧ b.state.worldSize = (w, h)) := by
  have hpw' : ((base.pixelSize.1 : ℤ) : ℚ) ≠ 0 := by exact_mod_cast hpw.ne'
  have hph' : ((base.pixelSize.2 : ℤ) : ℚ) ≠ 0 := by exact_mod_cast hph.ne'
  refine ⟨fun hw hh => ?_, fun hw hh => ?_, fun hw hh => ?_⟩
  · obtain ⟨b, hok, _, hws⟩ := Boids_new_ok base w h (fun hc => hw hc.1)
    rw [if_pos hh] at hws
    refine ⟨b, hok, by rw [hws], ?_⟩
    rw [hws]
    field_simp
  · obtain ⟨b, hok, _, hws⟩ := Boids_new_ok base w h (fun hc => hh hc.2)
    rw [if_neg hh, if_pos hw] at hws
    refine ⟨b, hok, by rw [hws], ?_⟩
    rw [hws]
    field_simp
  · obtain ⟨b, hok, _, hws⟩ := Boids_new_ok base w h (fun hc => hw hc.1)
    rw [if_neg hh, if_neg hw] at hws
    exact ⟨b, hok, hws⟩

/-- Witness for C5: `worldWidth = 2000`, `worldHeight = -1` in an 800 x 600 window gives the
world size `(2000, 1500)`. -/
theorem Boids_new_aspect_witness :
    ∃ b, Boids.new sampleState 2000 (-1) = .ok b ∧ b.state.worldSize = (2000, 1500) := by
  obtain ⟨b, hok, h1, h2⟩ :=
    (Boids_new_aspect sampleState 2000 (-1) (by simp [sampleState]) (by simp [sampleState])).1
      (by norm_num) rfl
  refine ⟨b, hok, ?_⟩
  have h3 : b.state.worldSize.2 = 1500 := by
    rw [h1] at h2
    simp only [sampleState] at h2
    push_cast at h2
    linarith
  exact Prod.ext h1 h3

/-! ## Squareboy: wrap-around and damped motion -/

theorem pymod_eq_emod (a b : ℤ) (hb : 0 < b) : pymod a b = a % b :=
  Int.fmod_eq_emod a hb.le

/-- C6: for a positive pixel width `W` and an entity with pixel x outside `[0, W]`, one
`behave()` call sets `pixelPosition[0]` and `rect.x` to `pymod(x, W) = x mod W`, which lies in
`[0, W)`, leaves `pixelPosition[1]` alone and re-derives the world position from the new pixel
position; an entity at `x = W + 5` with `W > 5` ends at `x = 5`. -/
theorem behave_wraps_x (state : BaseState) (s : Squareboy) (hW : 0 < state.pixelSize.1)
    (hx : s.pixelPosition.1 < 0 ∨ s.pixelPosition.1 > state.pixelSize.1) :
    (Squareboy.behave state s).pixelPosition.1 = pymod s.pixelPosition.1 state.pixelSize.1 ∧
    (Squareboy.behave state s).pixelPosition.1 = s.pixelPosition.1 % state.pixelSize.1 ∧
    0 ≤ (Squareboy.behave state s).pixelPosition.1 ∧
    (Squareboy.behave state s).pixelPosition.1 < state.pixelSize.1 ∧
    (Squareboy.behave state s).rect.x = s.pixelPosition.1 % state.pixelSize.1 ∧
    (Squareboy.behave state s).pixelPosition.2 = s.pixelPosition.2 ∧
    (Squareboy.behave state s).worldPosition =
      BaseWorldObject.pixelToWorldV state (Squareboy.behave state s).pixelPosition ∧
    (s.pixelPosition.1 = state.pixelSize.1 + 5 → 5 < state.pixelSize.1 →
      (Squareboy.behave state s).pixelPosition.1 = 5) := by
  have hb : (Squareboy.behave state s).toBaseWorldObject =
      BaseWorldObject.updatePixelPositionX state s.toBaseWorldObject
        (pymod s.pixelPosition.1 state.pixelSize.1) := by
    unfold Squareboy.behave
    rw [if_pos hx]
  have hm := pymod_eq_emod s.pixelPosition.1 state.pixelSize.1 hW
  have hpp : (Squareboy.behave state s).pixelPosition =
      (s.pixelPosition.1 % state.pixelSize.1, s.pixelPosition.2) := by
    rw [hb, ← hm]
    rfl
  have hrx : (Squareboy.behave state s).rect.x = s.pixelPosition.1 % state.pixelSize.1 := by
    rw [hb, ← hm]
    rfl
  have hwp : (Squareboy.behave state s).worldPosition =
      BaseWorldObject.pixelToWorldV state (Squareboy.behave state s).pixelPosition := by
    rw [hb]
    rfl
  refine ⟨?_, ?_, ?_, ?_, hrx, ?_, hwp, ?_⟩
  · rw [hpp, hm]
  · rw [hpp]
  · rw [hpp]
    exact Int.emod_nonneg _ hW.ne'
  · rw [hpp]
    exact Int.emod_lt_of_pos _ hW
  · rw [hpp]
  · intro h5 hlt
    rw [hpp, h5]
    show (state.pixelSize.1 + 5) % state.pixelSize.1 = 5
    rw [Int.add_emod_self_left]
    exact Int.emod_eq_of_lt (by norm_num) hlt

/-- Witness for C6: in the 800-pixel-wide window the entity at pixel x = 805 ends at x = 5. -/
theorem behave_wraps_x_witness :
    (Squareboy.behave sampleState strayBoy).pixelPosition.1 = 5 ∧
    (Squareboy.behave sampleState strayBoy).rect.x = 805 % 800 ∧
    (Squareboy.behave sampleState strayBoy).worldPosition =
      BaseWorldObject.pixelToWorldV sampleState (Squareboy.behave sampleState strayBoy).pixelPosition :=
  have h := behave_wraps_x sampleState strayBoy (by simp [sampleState])
    (Or.inr (by simp [sampleState, strayBoy]))
  ⟨h.2.2.2.2.2.2.2 rfl (by simp [sampleState]), h.2.2.2.2.1, h.2.2.2.2.2.2.1⟩

/-- C7: after `motion()` the velocity is `v * (1 - 0.1 * dt)` component-wise, the world position
is `p + v' * dt` with `v'` the new velocity, and the pixel position and the rect origin are
re-derived from the new world position (the rect size is untouched). -/
theorem motion_damps_then_integrates (state : BaseState) (s : Squareboy) :
    (Squareboy.motion state s).velocity =
      (s.velocity.1 * (1 - (1 / 10) * state.worldDt),
       s.velocity.2 * (1 - (1 / 10) * state.worldDt)) ∧
    (Squareboy.motion state s).worldPosition =
      (s.worldPosition.1 + (Squareboy.motion state s).velocity.1 * state.worldDt,
       s.worldPosition.2 + (Squareboy.motion state s).velocity.2 * state.worldDt) ∧
    (Squareboy.motion state s).pixelPosition =
      BaseWorldObject.worldToPixelV state (Squareboy.motion state s).worldPosition ∧
    (Squareboy.motion state s).rect.x = (Squareboy.motion state s).pixelPosition.1 ∧
    (Squareboy.motion state s).rect.y = (Squareboy.motion state s).pixelPosition.2 ∧
    (Squareboy.motion state s).rect.w = s.rect.w ∧
    (Squareboy.motion state s).rect.h = s.rect.h := by
  refine ⟨?_, rfl, rfl, rfl, rfl, rfl, rfl⟩
  simp only [Squareboy.motion]
  refine Prod.ext ?_ ?_ <;> simp only <;> ring

/-! ## Input broadcast -/

theorem invoke_calls {σ : Type} (l : StateEventListener σ) (i : ℕ) (cb : Callback)
    (fr : Frame σ) : (invoke l i cb fr).calls = fr.calls ++ [(i, cb)] := rfl

theorem broadcastFrom_calls {σ : Type} (cb : Callback) (ls : List (StateEventListener σ)) :
    ∀ (i : ℕ) (fr : Frame σ),
      (broadcastFrom cb i ls fr).calls =
        fr.calls ++ (List.range' i ls.length).map fun j => (j, cb) := by
  induction ls with
  | nil =>
    intro i fr
    simp [broadcastFrom]
  | cons l ls ih =>
    intro i fr
    simp only [broadcastFrom, ih, invoke_calls, List.length_cons, List.range'_succ, List.map_cons,
      List.append_assoc, List.singleton_append]

theorem broadcast_calls {σ : Type} (cb : Callback) (ls : List (StateEventListener σ))
    (fr : Frame σ) :
    (broadcastFrom cb 0 ls fr).calls = fr.calls ++ (List.range ls.length).map fun j => (j, cb) := by
  rw [broadcastFrom_calls, List.range_eq_range']

theorem handleEvent_calls {σ : Type} (listeners : List (StateEventListener σ)) (e : SDL_Event)
    (fr : Frame σ) :
    (handleEvent listeners e fr).calls = fr.calls ++ fanOut listeners.length e := by
  cases e with
  | keyDown sym mod =>
    simp only [handleEvent, fanOut, callbackOf, broadcast_calls]
    split_ifs <;> rfl
  | quit => simp [handleEvent, fanOut, callbackOf]
  | keyUp sym mod => simp only [handleEvent, fanOut, callbackOf, broadcast_calls]
  | mouseButtonDown button => simp only [handleEvent, fanOut, callbackOf, broadcast_calls]
  | mouseButtonUp button => simp only [handleEvent, fanOut, callbackOf, broadcast_calls]
  | other type => simp [handleEvent, fanOut, callbackOf]

theorem calls_of_handleUserInput {σ : Type} (listeners : List (StateEventListener σ))
    (events : List SDL_Event) :
    ∀ fr : Frame σ, (handleUserInput listeners events fr).calls =
      fr.calls ++ events.flatMap (fanOut listeners.length) := by
  induction events with
  | nil =>
    intro fr
    simp [handleUserInput]
  | cons e es ih =>
    intro fr
    simp only [handleUserInput, ih, handleEvent_calls, List.flatMap_cons, List.append_assoc]

theorem mod16_ne_SDLK_LALT (mod : ℕ) : ((mod % 65536 : ℕ) : ℤ) ≠ SDLK_LALT := by
  have h : mod % 65536 < 65536 := Nat.mod_lt _ (by norm_num)
  unfold SDLK_LALT
  omega

/-- The `SDLK_F4` branch never clears the flag: a key-down, whatever its key and modifier
state, only stores the key and broadcasts it. -/
theorem handleEvent_keyDown {σ : Type} (listeners : List (StateEventListener σ)) (sym : ℤ)
    (mod : ℕ) (fr : Frame σ) :
    handleEvent listeners (.keyDown sym mod) fr =
      broadcastFrom (.onKeyDown sym) 0 listeners
        { fr with state := { fr.state with keyDown := sym } } := by
  simp only [handleEvent, if_neg (mod16_ne_SDLK_LALT mod), ite_self]

/-- C9 (code evaluated at the failing input): a key-down of F4 with `keysym.mod = KMOD_LALT`,
polled while the flag is set and one listener is registered, leaves the active flag set; the
key-down is broadcast to the listener. -/
theorem forceQuit_keydown_stays_active :
    sampleFrame.state.active = true ∧
    (handleUserInput [idleListener] [.keyDown SDLK_F4 KMOD_LALT] sampleFrame).state.active = true ∧
    (handleUserInput [idleListener] [.keyDown SDLK_F4 KMOD_LALT] sampleFrame).calls =
      [(0, .onKeyDown SDLK_F4)] := by
  refine ⟨rfl, ?_, ?_⟩
  · simp only [handleUserInput, handleEvent_keyDown]
    rfl
  · simp only [handleUserInput, handleEvent_keyDown]
    rfl

/-! ## Frame pacing -/

/-- C10: with the counter not behind `prevTime`, after `fpsControll()` the measured `frameTime`
is at least `targetFrameTime`; no delay is requested when the elapsed time already reaches the
target, otherwise the delay requested is the target minus the elapsed time; with target 16, no
time elapsed and an exact delay the frame time is 16. -/
theorem fpsControll_paces (c : Clock) (env : TimerRun) (hmono : c.prevTime ≤ env.t1) :
    c.targetFrameTime ≤ (c.fpsControll env).1.frameTime ∧
    (c.targetFrameTime ≤ env.t1 - c.prevTime → (c.fpsControll env).2 = none) ∧
    (env.t1 - c.prevTime < c.targetFrameTime →
      (c.fpsControll env).2 = some (c.targetFrameTime - (env.t1 - c.prevTime))) ∧
    (c.targetFrameTime = 16 → env.t1 = c.prevTime → env.oversleep = 0 → env.lag2 = 0 →
      (c.fpsControll env).1.frameTime = 16) ∧
    (c.fpsControll env).1.dt = env.t1 - c.prevTime ∧
    (c.fpsControll env).1.prevTime = c.prevTime + (c.fpsControll env).1.frameTime + env.lag3 := by
  by_cases hlt : env.t1 - c.prevTime < c.targetFrameTime
  · have hf : (c.fpsControll env).1.frameTime =
        env.t1 + (c.targetFrameTime - (env.t1 - c.prevTime)) + env.oversleep + env.lag2
          - c.prevTime := by
      simp only [Clock.fpsControll, if_pos hlt]
    have hd : (c.fpsControll env).2 = some (c.targetFrameTime - (env.t1 - c.prevTime)) := by
      simp only [Clock.fpsControll, if_pos hlt]
    have hp : (c.fpsControll env).1.prevTime =
        env.t1 + (c.targetFrameTime - (env.t1 - c.prevTime)) + env.oversleep + env.lag2
          + env.lag3 := by
      simp only [Clock.fpsControll, if_pos hlt]
    refine ⟨by omega, fun h => by omega, fun _ => hd, fun _ _ _ _ => by omega, rfl, by omega⟩
  · have hf : (c.fpsControll env).1.frameTime = env.t1 + env.lag2 - c.prevTime := by
      simp only [Clock.fpsControll, if_neg hlt]
    have hd : (c.fpsControll env).2 = none := by
      simp only [Clock.fpsControll, if_neg hlt]
    have hp : (c.fpsControll env).1.prevTime = env.t1 + env.lag2 + env.lag3 := by
      simp only [Clock.fpsControll, if_neg hlt]
    refine ⟨by omega, fun _ => hd, fun h => absurd h hlt, fun _ _ _ _ => by omega, rfl, by omega⟩

/-- Witness for C10: target 16 ms, the counter still at `prevTime = 100`, an exact delay: a delay
of 16 ms is requested and the measured frame time is 16 ms. -/
theorem fpsControll_paces_witness :
    (Clock.fpsControll
        { targetFps := 60, targetFrameTime := 16, dt := 16, prevTime := 100, frameTime := 0 }
        { t1 := 100, oversleep := 0, lag2 := 0, lag3 := 0 }).1.frameTime = 16 ∧
    (Clock.fpsControll
        { targetFps := 60, targetFrameTime := 16, dt := 16, prevTime := 100, frameTime := 0 }
        { t1 := 100, oversleep := 0, lag2 := 0, lag3 := 0 }).2 = some (16 - (100 - 100)) :=
  have h := fpsControll_paces
    { targetFps := 60, targetFrameTime := 16, dt := 16, prevTime := 100, frameTime := 0 }
    { t1 := 100, oversleep := 0, lag2 := 0, lag3 := 0 } (by decide)
  ⟨h.2.2.2.1 rfl rfl rfl rfl, h.2.2.1 (by decide)⟩

/-! ## Clock construction -/

theorem Clock_new_ok (n ticks : ℕ) (h : n % 256 ≠ 0) :
    Clock.new n ticks =
      .ok { targetFps := n % 256, targetFrameTime := 1000 / (n % 256), dt := 1000 / (n % 256),
            prevTime := ticks, frameTime := 0 } := by
  simp only [Clock.new, if_neg h]

theorem toNat_mod256 (f : ℤ) : ((f % 256).toNat : ℤ) = f % 256 :=
  Int.toNat_of_nonneg (Int.emod_nonneg f (by norm_num))

theorem toNat_mod256_mod (f : ℤ) : (f % 256).toNat % 256 = (f % 256).toNat := by
  have h1 := toNat_mod256 f
  have h2 : f % 256 < 256 := Int.emod_lt_of_pos f (by norm_num)
  apply Nat.mod_eq_of_lt
  omega

theorem initClock_ok (f : ℤ) (ticks : ℕ) (h : f % 256 ≠ 0) :
    BaseState.initClock f ticks =
      .ok { targetFps := (f % 256).toNat, targetFrameTime := 1000 / (f % 256).toNat,
            dt := 1000 / (f % 256).toNat, prevTime := ticks, frameTime := 0 } := by
  have hne : (f % 256).toNat % 256 ≠ 0 := by
    rw [toNat_mod256_mod]
    have h1 := toNat_mod256 f
    omega
  unfold BaseState.initClock
  rw [Clock_new_ok _ _ hne, toNat_mod256_mod]

theorem initClock_never_throws (f : ℤ) (ticks : ℕ) (e : Exception) :
    BaseState.initClock f ticks ≠ .error (.thrown e) := by
  unfold BaseState.initClock Clock.new
  simp only
  split <;> simp

/-- C11 (counterexample): the configured rate `f = -1` is not positive, yet the constructor
succeeds (the rate is narrowed to 255, the target frame time is 3); the configured rate
`f = 256` is positive, yet no clock is constructed (it is narrowed to 0). -/
theorem initClock_accepts_negative_rate :
    ((-1 : ℤ) ≤ 0 ∧
      BaseState.initClock (-1) 0 =
        .ok { targetFps := 255, targetFrameTime := 3, dt := 3, prevTime := 0, frameTime := 0 }) ∧
    ((0 : ℤ) < 256 ∧ BaseState.initClock 256 0 = .error .divisionByZero) := by
  refine ⟨⟨by norm_num, ?_⟩, ⟨by norm_num, ?_⟩⟩
  · rw [initClock_ok (-1) 0 (by decide)]
    rfl
  · rfl

/-- C11 (amended): the constructor does not validate the frame rate. For every configured
integer `f` with `f mod 256 ≠ 0`, of either sign, construction succeeds, with
`targetFps = f mod 256`, `targetFrameTime = 1000 / (f mod 256)` (integer division),
`dt = targetFrameTime` and `prevTime` the counter value read. -/
theorem initClock_unchecked (f : ℤ) (ticks : ℕ) (h : f % 256 ≠ 0) :
    ∃ c, BaseState.initClock f ticks = .ok c ∧ (c.targetFps : ℤ) = f % 256 ∧
      (c.targetFrameTime : ℤ) = 1000 / (f % 256) ∧ c.dt = c.targetFrameTime ∧
      c.prevTime = ticks := by
  refine ⟨_, initClock_ok f ticks h, toNat_mod256 f, ?_, rfl, rfl⟩
  show ((1000 / (f % 256).toNat : ℕ) : ℤ) = 1000 / (f % 256)
  rw [← toNat_mod256 f]
  norm_cast

/-- Witness for C11 (amended): the configured rate `-1`. -/
theorem initClock_unchecked_witness :
    ∃ c, BaseState.initClock (-1) 0 = .ok c ∧ (c.targetFps : ℤ) = (-1) % 256 ∧
      (c.targetFrameTime : ℤ) = 1000 / ((-1) % 256) ∧ c.dt = c.targetFrameTime ∧
      c.prevTime = 0 :=
  initClock_unchecked (-1) 0 (by decide)

theorem fpsControll_targetFrameTime (c : Clock) (env : TimerRun) :
    (c.fpsControll env).1.targetFrameTime = c.targetFrameTime := rfl

theorem worldDtOf_ok (c : Clock) (h : c.targetFrameTime ≠ 0) :
    worldDtOf c = .ok ((c.frameTime / c.targetFrameTime : ℕ) : ℚ) := by
  simp only [worldDtOf, if_neg h]

theorem div_1000_bounds (n : ℕ) (h1 : 1 ≤ n) (h2 : n ≤ 255) : 3 ≤ 1000 / n ∧ 1000 / n ≤ 1000 := by
  refine ⟨?_, Nat.div_le_self _ _⟩
  rw [Nat.le_div_iff_mul_le (by omega)]
  omega

/-- C17: the clock is built from the configured integer rate narrowed to 8 bits, with
`targetFrameTime = 1000 / (f mod 256)` (integer division) whenever `f mod 256 ≠ 0`; for `f` in
1..255 this is `1000 / f`, between 3 and 1000 and not zero, `fpsControll` does not change it,
and so the division `frameTime / targetFrameTime` of `run` has a non-zero divisor; `f = 60`
gives 16. -/
theorem clock_targetFrameTime (f : ℤ) (ticks : ℕ) :
    (f % 256 ≠ 0 → ∃ c, BaseState.initClock f ticks = .ok c ∧ (c.targetFps : ℤ) = f % 256 ∧
      (c.targetFrameTime : ℤ) = 1000 / (f % 256)) ∧
    (1 ≤ f → f ≤ 255 → ∃ c, BaseState.initClock f ticks = .ok c ∧
      (c.targetFrameTime : ℤ) = 1000 / f ∧ 3 ≤ c.targetFrameTime ∧ c.targetFrameTime ≤ 1000 ∧
      c.targetFrameTime ≠ 0 ∧
      ∀ env : TimerRun, (c.fpsControll env).1.targetFrameTime ≠ 0 ∧
        worldDtOf (c.fpsControll env).1 =
          .ok (((c.fpsControll env).1.frameTime / c.targetFrameTime : ℕ) : ℚ)) ∧
    (∃ c, BaseState.initClock 60 ticks = .ok c ∧ c.targetFrameTime = 16) := by
  have hcast : ∀ g : ℤ, ((1000 / (g % 256).toNat : ℕ) : ℤ) = 1000 / (g % 256) := by
    intro g
    rw [← toNat_mod256 g]
    norm_cast
  refine ⟨fun h => ⟨_, initClock_ok f ticks h, toNat_mod256 f, hcast f⟩, fun h1 h2 => ?_, ?_⟩
  · have hmod : f % 256 = f := Int.emod_eq_of_lt (by omega) (by omega)
    have hne : f % 256 ≠ 0 := by omega
    have hn := toNat_mod256 f
    have hb := div_1000_bounds (f % 256).toNat (by omega) (by omega)
    refine ⟨_, initClock_ok f ticks hne, ?_, hb.1, hb.2, ?_, fun env => ⟨?_, ?_⟩⟩
    · have h3 := hcast f
      rw [hmod] at h3
      show ((1000 / (f % 256).toNat : ℕ) : ℤ) = 1000 / f
      rw [hmod]
      exact h3
    · show 1000 / (f % 256).toNat ≠ 0
      omega
    · show 1000 / (f % 256).toNat ≠ 0
      omega
    · apply worldDtOf_ok
      show 1000 / (f % 256).toNat ≠ 0
      omega
  · exact ⟨_, initClock_ok 60 ticks (by decide), rfl⟩

/-- Witness for C17: the configured rate 60 at counter value 100. -/
theorem clock_targetFrameTime_witness :
    ∃ c, BaseState.initClock 60 100 = .ok c ∧ (c.targetFrameTime : ℤ) = 1000 / 60 ∧
      3 ≤ c.targetFrameTime ∧ c.targetFrameTime ≤ 1000 ∧ c.targetFrameTime ≠ 0 ∧
      ∀ env : TimerRun, (c.fpsControll env).1.targetFrameTime ≠ 0 ∧
        worldDtOf (c.fpsControll env).1 =
          .ok (((c.fpsControll env).1.frameTime / c.targetFrameTime : ℕ) : ℚ) :=
  (clock_targetFrameTime 60 100).2.1 (by decide) (by decide)

/-! ## Squareboy: one axis per call, range after the call, user input -/

theorem behave_x_out (state : BaseState) (s : Squareboy)
    (hx : s.pixelPosition.1 < 0 ∨ s.pixelPosition.1 > state.pixelSize.1) :
    (Squareboy.behave state s).toBaseWorldObject =
      BaseWorldObject.updatePixelPositionX state s.toBaseWorldObject
        (pymod s.pixelPosition.1 state.pixelSize.1) := by
  unfold Squareboy.behave
  rw [if_pos hx]

theorem behave_y_out (state : BaseState) (s : Squareboy)
    (hx : ¬ (s.pixelPosition.1 < 0 ∨ s.pixelPosition.1 > state.pixelSize.1))
    (hy : s.pixelPosition.2 < 0 ∨ s.pixelPosition.2 > state.pixelSize.2) :
    (Squareboy.behave state s).toBaseWorldObject =
      BaseWorldObject.updatePixelPositionY state s.toBaseWorldObject
        (pymod s.pixelPosition.2 state.pixelSize.2) := by
  unfold Squareboy.behave
  rw [if_neg hx, if_pos hy]

theorem behave_inside (state : BaseState) (s : Squareboy)
    (hx : ¬ (s.pixelPosition.1 < 0 ∨ s.pixelPosition.1 > state.pixelSize.1))
    (hy : ¬ (s.pixelPosition.2 < 0 ∨ s.pixelPosition.2 > state.pixelSize.2)) :
    Squareboy.behave state s = s := by
  unfold Squareboy.behave
  rw [if_neg hx, if_neg hy]

theorem behave_pixel_x_out (state : BaseState) (s : Squareboy) (hW : 0 < state.pixelSize.1)
    (hx : s.pixelPosition.1 < 0 ∨ s.pixelPosition.1 > state.pixelSize.1) :
    (Squareboy.behave state s).pixelPosition =
      (s.pixelPosition.1 % state.pixelSize.1, s.pixelPosition.2) := by
  rw [behave_x_out state s hx, ← pymod_eq_emod _ _ hW]
  rfl

theorem behave_pixel_y_out (state : BaseState) (s : Squareboy) (hH : 0 < state.pixelSize.2)
    (hx : ¬ (s.pixelPosition.1 < 0 ∨ s.pixelPosition.1 > state.pixelSize.1))
    (hy : s.pixelPosition.2 < 0 ∨ s.pixelPosition.2 > state.pixelSize.2) :
    (Squareboy.behave state s).pixelPosition =
      (s.pixelPosition.1, s.pixelPosition.2 % state.pixelSize.2) := by
  rw [behave_y_out state s hx hy, ← pymod_eq_emod _ _ hH]
  rfl

/-- C12: for a positive pixel size, when pixel x and pixel y are both out of bounds one
`behave()` call wraps the x axis only, `pixelPosition` becomes `(x mod W, y)` and y is still out
of bounds; when `0 ≤ x ≤ W` and y is out of bounds, `pixelPosition` becomes `(x, y mod H)`; and
the y coordinate changes only if `0 ≤ x ≤ W`. -/
theorem behave_wraps_one_axis (state : BaseState) (s : Squareboy)
    (hW : 0 < state.pixelSize.1) (hH : 0 < state.pixelSize.2) :
    ((s.pixelPosition.1 < 0 ∨ s.pixelPosition.1 > state.pixelSize.1) →
      (s.pixelPosition.2 < 0 ∨ s.pixelPosition.2 > state.pixelSize.2) →
      (Squareboy.behave state s).pixelPosition =
        (s.pixelPosition.1 % state.pixelSize.1, s.pixelPosition.2) ∧
      ((Squareboy.behave state s).pixelPosition.2 < 0 ∨
        (Squareboy.behave state s).pixelPosition.2 > state.pixelSize.2)) ∧
    (0 ≤ s.pixelPosition.1 → s.pixelPosition.1 ≤ state.pixelSize.1 →
      (s.pixelPosition.2 < 0 ∨ s.pixelPosition.2 > state.pixelSize.2) →
      (Squareboy.behave state s).pixelPosition =
        (s.pixelPosition.1, s.pixelPosition.2 % state.pixelSize.2)) ∧
    ((Squareboy.behave state s).pixelPosition.2 ≠ s.pixelPosition.2 →
      0 ≤ s.pixelPosition.1 ∧ s.pixelPosition.1 ≤ state.pixelSize.1) := by
  refine ⟨fun hx hy => ?_, fun h0 h1 hy => ?_, fun hne => ?_⟩
  · have hpp := behave_pixel_x_out state s hW hx
    refine ⟨hpp, ?_⟩
    rw [hpp]
    exact hy
  · exact behave_pixel_y_out state s hH (by omega) hy
  · by_contra hc
    have hx : s.pixelPosition.1 < 0 ∨ s.pixelPosition.1 > state.pixelSize.1 := by omega
    apply hne
    rw [behave_pixel_x_out state s hW hx]

/-- Witness for C12: in the 800 x 600 window the entity at pixel `(805, 700)` ends at
`(5, 700)`. -/
theorem behave_wraps_one_axis_witness :
    (Squareboy.behave sampleState lostBoy).pixelPosition = (805 % 800, 700) ∧
    ((Squareboy.behave sampleState lostBoy).pixelPosition.2 < 0 ∨
      (Squareboy.behave sampleState lostBoy).pixelPosition.2 > 600) :=
  (behave_wraps_one_axis sampleState lostBoy (by simp [sampleState]) (by simp [sampleState])).1
    (Or.inr (by simp [sampleState, lostBoy])) (Or.inr (by simp [sampleState, lostBoy]))

/-- C16: for a positive pixel size, after one `behave()` call `0 ≤ pixelPosition[0] ≤ W`; an
entity at `x = W` is left at `x = W`; and if `0 ≤ x ≤ W` held before the call then
`0 ≤ pixelPosition[1] ≤ H` holds after it. -/
theorem behave_range (state : BaseState) (s : Squareboy)
    (hW : 0 < state.pixelSize.1) (hH : 0 < state.pixelSize.2) :
    0 ≤ (Squareboy.behave state s).pixelPosition.1 ∧
    (Squareboy.behave state s).pixelPosition.1 ≤ state.pixelSize.1 ∧
    (s.pixelPosition.1 = state.pixelSize.1 →
      (Squareboy.behave state s).pixelPosition.1 = state.pixelSize.1) ∧
    (0 ≤ s.pixelPosition.1 → s.pixelPosition.1 ≤ state.pixelSize.1 →
      0 ≤ (Squareboy.behave state s).pixelPosition.2 ∧
      (Squareboy.behave state s).pixelPosition.2 ≤ state.pixelSize.2) := by
  have hxr : ∀ hx : ¬ (s.pixelPosition.1 < 0 ∨ s.pixelPosition.1 > state.pixelSize.1),
      (Squareboy.behave state s).pixelPosition.1 = s.pixelPosition.1 ∧
      0 ≤ (Squareboy.behave state s).pixelPosition.2 ∧
      (Squareboy.behave state s).pixelPosition.2 ≤ state.pixelSize.2 := by
    intro hx
    by_cases hy : s.pixelPosition.2 < 0 ∨ s.pixelPosition.2 > state.pixelSize.2
    · rw [behave_pixel_y_out state s hH hx hy]
      exact ⟨rfl, Int.emod_nonneg _ hH.ne', (Int.emod_lt_of_pos _ hH).le⟩
    · rw [behave_inside state s hx hy]
      exact ⟨rfl, by omega, by omega⟩
  by_cases hx : s.pixelPosition.1 < 0 ∨ s.pixelPosition.1 > state.pixelSize.1
  · have hpp := behave_pixel_x_out state s hW hx
    rw [hpp]
    exact ⟨Int.emod_nonneg _ hW.ne', (Int.emod_lt_of_pos _ hW).le, fun h => by omega,
      fun h0 h1 => by omega⟩
  · obtain ⟨h1, h2, h3⟩ := hxr hx
    exact ⟨by omega, by omega, fun _ => by omega, fun _ _ => ⟨h2, h3⟩⟩

/-- Witness for C16: the entity at pixel `(805, 300)` in the 800 x 600 window. -/
theorem behave_range_witness :
    0 ≤ (Squareboy.behave sampleState strayBoy).pixelPosition.1 ∧
    (Squareboy.behave sampleState strayBoy).pixelPosition.1 ≤ sampleState.pixelSize.1 :=
  have h := behave_range sampleState strayBoy (by simp [sampleState]) (by simp [sampleState])
  ⟨h.1, h.2.1⟩

/-- C13: after `interactUser()` the acceleration is `k * ([D] - [A], [S] - [W])` with `k = 5`
if Space is held and `k = 1` otherwise, whatever the previous acceleration (opposite keys
cancel), the velocity is `v + acceleration * dt`, and the world position, the pixel position and
the rect are unchanged. -/
theorem interactUser_spec (state : BaseState) (s : Squareboy) :
    (Squareboy.interactUser state s).acceleration =
      ((if state.keystates SDL_SCANCODE_SPACE then 5 else 1) *
          (held (state.keystates SDL_SCANCODE_D) - held (state.keystates SDL_SCANCODE_A)),
       (if state.keystates SDL_SCANCODE_SPACE then 5 else 1) *
          (held (state.keystates SDL_SCANCODE_S) - held (state.keystates SDL_SCANCODE_W))) ∧
    (Squareboy.interactUser state s).velocity =
      (s.velocity.1 + (Squareboy.interactUser state s).acceleration.1 * state.worldDt,
       s.velocity.2 + (Squareboy.interactUser state s).acceleration.2 * state.worldDt) ∧
    (Squareboy.interactUser state s).worldPosition = s.worldPosition ∧
    (Squareboy.interactUser state s).pixelPosition = s.pixelPosition ∧
    (Squareboy.interactUser state s).rect = s.rect ∧
    (state.keystates SDL_SCANCODE_A = true → state.keystates SDL_SCANCODE_D = true →
      (Squareboy.interactUser state s).acceleration.1 = 0) ∧
    (state.keystates SDL_SCANCODE_W = true → state.keystates SDL_SCANCODE_S = true →
      (Squareboy.interactUser state s).acceleration.2 = 0) := by
  have hacc : (Squareboy.interactUser state s).acceleration =
      ((if state.keystates SDL_SCANCODE_SPACE then 5 else 1) *
          (held (state.keystates SDL_SCANCODE_D) - held (state.keystates SDL_SCANCODE_A)),
       (if state.keystates SDL_SCANCODE_SPACE then 5 else 1) *
          (held (state.keystates SDL_SCANCODE_S) - held (state.keystates SDL_SCANCODE_W))) := by
    simp only [Squareboy.interactUser, held]
    cases state.keystates SDL_SCANCODE_A <;> cases state.keystates SDL_SCANCODE_D <;>
      cases state.keystates SDL_SCANCODE_W <;> cases state.keystates SDL_SCANCODE_S <;>
      cases state.keystates SDL_SCANCODE_SPACE <;> norm_num
  refine ⟨hacc, rfl, rfl, rfl, rfl, fun hA hD => ?_, fun hW hS => ?_⟩
  · rw [hacc]
    simp [held, hA, hD]
  · rw [hacc]
    simp [held, hW, hS]

/-! ## The grid of entities -/

theorem grid_length (state : BaseState) : (Boids.grid state).length = 25 := rfl

theorem grid_entity (state : BaseState) (e : Squareboy) (he : e ∈ Boids.grid state) :
    e.worldPosition = (20, 20) ∧ e.rect.w = 20 ∧ e.rect.h = 20 := by
  simp only [Boids.grid, List.mem_flatMap, List.mem_map] at he
  obtain ⟨i, _, j, _, rfl⟩ := he
  refine ⟨?_, rfl, rfl⟩
  simp [Squareboy.new, newWorld_worldPosition]

theorem grid_worldPositions (state : BaseState) :
    (Boids.grid state).map (fun e => e.worldPosition) = List.replicate 25 (20, 20) := by
  rw [List.eq_replicate_iff]
  refine ⟨by simp [grid_length], ?_⟩
  intro q hq
  obtain ⟨e, he, rfl⟩ := List.mem_map.mp hq
  exact (grid_entity state e he).1

/-- C15 (code evaluated at the failing input): the scene built in an 800 x 600 window with
`worldWidth = 2000`, `worldHeight = -1` holds 25 entities with 20 x 20 rects, and every one of
them has world position `(20, 20)`: the entity for `(i, j) = (1, 0)`, sixth in insertion order,
is not at `(150, 100)`, and the positions are not pairwise distinct. -/
theorem grid_entities_coincide :
    ∃ b, Boids.new sampleState 2000 (-1) = .ok b ∧ b.entities.length = 25 ∧
      (∀ e ∈ b.entities, e.rect.w = 20 ∧ e.rect.h = 20) ∧
      b.entities.map (fun e => e.worldPosition) = List.replicate 25 (20, 20) ∧
      (b.entities.map (fun e => e.worldPosition))[5]? = some (20, 20) ∧
      (b.entities.map (fun e => e.worldPosition))[5]? ≠ some (150, 100) ∧
      ¬ (b.entities.map (fun e => e.worldPosition)).Nodup := by
  obtain ⟨b, hok, -, -⟩ := Boids_new_ok sampleState 2000 (-1) (by norm_num)
  have hent : ∃ st, b.entities = Boids.grid st := by
    simp only [Boids.new] at hok
    split at hok
    · cases hok
    · cases hok
      exact ⟨_, rfl⟩
  obtain ⟨st, hst⟩ := hent
  have hpos := grid_worldPositions st
  refine ⟨b, hok, ?_, ?_, ?_, ?_, ?_, ?_⟩
  · rw [hst, grid_length]
  · intro e he
    rw [hst] at he
    exact (grid_entity st e he).2
  · rw [hst, hpos]
  · rw [hst, hpos]
    rfl
  · rw [hst, hpos]
    simp
  · rw [hst, hpos]
    simp [List.replicate]

/-! ## The active flag and the end of the loop -/

theorem invoke_active {σ : Type} (l : StateEventListener σ) (hl : Quiet l) (i : ℕ)
    (cb : Callback) (fr : Frame σ) : (invoke l i cb fr).state.active = fr.state.active :=
  hl cb (fr.state.active, fr.scene)

theorem broadcastFrom_active {σ : Type} (cb : Callback) (ls : List (StateEventListener σ))
    (hq : ∀ l ∈ ls, Quiet l) :
    ∀ (i : ℕ) (fr : Frame σ), (broadcastFrom cb i ls fr).state.active = fr.state.active := by
  induction ls with
  | nil =>
    intro i fr
    rfl
  | cons l ls ih =>
    intro i fr
    have hl : Quiet l := hq l (List.mem_cons_self l ls)
    have hrest : ∀ l2 ∈ ls, Quiet l2 := fun l2 h2 => hq l2 (List.mem_cons_of_mem l h2)
    simp only [broadcastFrom]
    rw [ih hrest, invoke_active l hl]

theorem handleEvent_active {σ : Type} (ls : List (StateEventListener σ))
    (hq : ∀ l ∈ ls, Quiet l) (e : SDL_Event) (fr : Frame σ) :
    (handleEvent ls e fr).state.active = (fr.state.active && decide (e ≠ SDL_Event.quit)) := by
  cases e with
  | quit => simp [handleEvent]
  | keyDown sym mod =>
    rw [handleEvent_keyDown, broadcastFrom_active _ ls hq]
    simp
  | keyUp sym mod =>
    simp only [handleEvent]
    rw [broadcastFrom_active _ ls hq]
    simp
  | mouseButtonDown button =>
    simp only [handleEvent]
    rw [broadcastFrom_active _ ls hq]
    simp
  | mouseButtonUp button =>
    simp only [handleEvent]
    rw [broadcastFrom_active _ ls hq]
    simp
  | other type => simp [handleEvent]

theorem handleUserInput_active {σ : Type} (ls : List (StateEventListener σ))
    (hq : ∀ l ∈ ls, Quiet l) (evs : List SDL_Event) :
    ∀ fr : Frame σ, (handleUserInput ls evs fr).state.active =
      (fr.state.active && decide (SDL_Event.quit ∉ evs)) := by
  induction evs with
  | nil =>
    intro fr
    simp [handleUserInput]
  | cons e es ih =>
    intro fr
    simp only [handleUserInput]
    rw [ih, handleEvent_active ls hq]
    by_cases h1 : e = SDL_Event.quit
    · simp [h1]
    · have h2 : ¬ SDL_Event.quit = e := fun h => h1 h.symm
      simp [h1, h2, List.mem_cons]

theorem runLoop_inactive {σ : Type} (ls : List (StateEventListener σ))
    (upd : BaseState → σ → σ) (inputs : List Tick) (p : Loop σ)
    (h : p.frame.state.active = false) : runLoop ls upd inputs p = .ok (some p) := by
  cases inputs <;> simp [runLoop, h]

/-- C14: with listeners whose callbacks do not write the active flag, `handleUserInput()` never
turns the flag on, and a quit event anywhere in the queue leaves it cleared; in the loop of
`run()`, the iteration whose poll clears the flag still calls `update()` and the clock tick
once each, and no further iteration is made. -/
theorem quit_ends_run {σ : Type} (ls : List (StateEventListener σ))
    (hq : ∀ l ∈ ls, Quiet l) (upd : BaseState → σ → σ) (evs : List SDL_Event) (tm : TimerRun)
    (post : List Tick) (fr : Frame σ) (p : Loop σ) :
    ((handleUserInput ls evs fr).state.active = true → fr.state.active = true) ∧
    (SDL_Event.quit ∈ evs → (handleUserInput ls evs fr).state.active = false) ∧
    (p.frame.state.active = true → p.clock.targetFrameTime ≠ 0 →
      (handleUserInput ls evs p.frame).state.active = false →
      ∃ q, iteration ls upd { events := evs, timer := tm } p = .ok q ∧
        runLoop ls upd ({ events := evs, timer := tm } :: post) p = .ok (some q) ∧
        q.frame.state.active = false ∧
        q.updates = p.updates + 1 ∧ q.ticks = p.ticks + 1 ∧
        q.frame.scene =
          upd (handleUserInput ls evs p.frame).state (handleUserInput ls evs p.frame).scene ∧
        q.clock = (p.clock.fpsControll tm).1) := by
  refine ⟨fun h => ?_, fun h => ?_, fun hp hc hoff => ?_⟩
  · rw [handleUserInput_active ls hq] at h
    simp only [Bool.and_eq_true] at h
    exact h.1
  · rw [handleUserInput_active ls hq]
    simp [h]
  · have hdt := worldDtOf_ok (p.clock.fpsControll tm).1 hc
    have hit : iteration ls upd { events := evs, timer := tm } p =
        .ok { frame := { state := { (handleUserInput ls evs p.frame).state with
                                      worldDt := (((p.clock.fpsControll tm).1.frameTime /
                                        (p.clock.fpsControll tm).1.targetFrameTime : ℕ) : ℚ) },
                         scene := upd (handleUserInput ls evs p.frame).state
                                    (handleUserInput ls evs p.frame).scene,
                         calls := (handleUserInput ls evs p.frame).calls },
              clock := (p.clock.fpsControll tm).1,
              updates := p.updates + 1, ticks := p.ticks + 1 } := by
      simp only [iteration, hdt]
    refine ⟨_, hit, ?_, hoff, rfl, rfl, rfl, rfl⟩
    simp only [runLoop, hp, if_true, hit]
    exact runLoop_inactive ls upd post _ hoff

theorem quiet_idleListener : ∀ l ∈ [idleListener], Quiet l := by
  intro l hl
  rw [List.mem_singleton] at hl
  subst hl
  intro cb w
  cases cb <;> rfl

/-- Witness for C14: one idle listener; the first poll of `run()` delivers a key-down and a
quit event; the loop makes that one iteration and stops, although a further poll is on offer. -/
theorem quit_ends_run_witness :
    ∃ q, run [idleListener] (fun _ u => u)
        [{ events := [.keyDown 5 0, .quit], timer := idleTimer 100 },
         { events := [], timer := idleTimer 200 }] sampleLoop = .ok (some q) ∧
      q.frame.state.active = false ∧ q.updates = 1 ∧ q.ticks = 1 := by
  have h := quit_ends_run [idleListener] quiet_idleListener (fun _ u => u)
    [.keyDown 5 0, .quit] (idleTimer 100) [{ events := [], timer := idleTimer 200 }]
    (activate sampleLoop).frame (activate sampleLoop)
  obtain ⟨q, -, hrun, hoff, hu, ht, -, -⟩ :=
    h.2.2 rfl (by decide) (h.2.1 (by simp))
  exact ⟨q, hrun, hoff, hu, ht⟩

/-! ## The broadcast reaches every listener, in registration order -/

theorem register_from {σ : Type} (regs : List (StateEventListener σ)) :
    ∀ init : List (StateEventListener σ),
      regs.foldl addInputEventListener init = init ++ regs := by
  induction regs with
  | nil =>
    intro init
    simp
  | cons l ls ih =>
    intro init
    simp only [List.foldl_cons, ih, addInputEventListener, List.append_assoc,
      List.singleton_append]

theorem register_eq {σ : Type} (regs : List (StateEventListener σ)) : register regs = regs := by
  simp [register, register_from]

theorem broadcastFrom_effect {σ : Type} (cb : Callback) (ls : List (StateEventListener σ)) :
    ∀ (i : ℕ) (fr : Frame σ),
      ((broadcastFrom cb i ls fr).state.active, (broadcastFrom cb i ls fr).scene) =
        ls.foldl (fun v l => l.call cb v) (fr.state.active, fr.scene) := by
  induction ls with
  | nil =>
    intro i fr
    rfl
  | cons l ls ih =>
    intro i fr
    simp only [broadcastFrom, List.foldl_cons]
    rw [ih]
    rfl

theorem handleEvent_effect {σ : Type} (ls : List (StateEventListener σ)) (e : SDL_Event)
    (fr : Frame σ) :
    ((handleEvent ls e fr).state.active, (handleEvent ls e fr).scene) =
      deliver ls e (fr.state.active, fr.scene) := by
  cases e with
  | quit => rfl
  | keyDown sym mod =>
    rw [handleEvent_keyDown, broadcastFrom_effect]
    rfl
  | keyUp sym mod =>
    simp only [handleEvent]
    rw [broadcastFrom_effect]
    rfl
  | mouseButtonDown button =>
    simp only [handleEvent]
    rw [broadcastFrom_effect]
    rfl
  | mouseButtonUp button =>
    simp only [handleEvent]
    rw [broadcastFrom_effect]
    rfl
  | other type => rfl

theorem handleUserInput_effect {σ : Type} (ls : List (StateEventListener σ))
    (events : List SDL_Event) :
    ∀ fr : Frame σ,
      ((handleUserInput ls events fr).state.active, (handleUserInput ls events fr).scene) =
        deliverAll ls events (fr.state.active, fr.scene) := by
  induction events with
  | nil =>
    intro fr
    rfl
  | cons e es ih =>
    intro fr
    simp only [handleUserInput, deliverAll, List.foldl_cons]
    rw [ih, handleEvent_effect]
    rfl

theorem recorders_foldl (names : List ℕ) (cb : Callback) :
    ∀ w : Bool × List (ℕ × Callback),
      (names.map recorder).foldl (fun v l => l.call cb v) w =
        (w.1, w.2 ++ names.map fun name => (name, cb)) := by
  induction names with
  | nil =>
    intro w
    simp
  | cons n ns ih =>
    intro w
    simp only [List.map_cons, List.foldl_cons, ih]
    cases cb <;> simp [StateEventListener.call, recorder]

theorem deliver_recorders (names : List ℕ) (e : SDL_Event) (w : Bool × List (ℕ × Callback)) :
    (deliver (names.map recorder) e w).2 = w.2 ++ expectedRecords names e := by
  cases e with
  | quit => simp [deliver, expectedRecords, callbackOf]
  | keyDown sym mod =>
    have h := recorders_foldl names (.onKeyDown sym) w
    simp only [StateEventListener.call] at h
    simp only [deliver, expectedRecords, callbackOf, h]
  | keyUp sym mod =>
    have h := recorders_foldl names (.onKeyUp sym) w
    simp only [StateEventListener.call] at h
    simp only [deliver, expectedRecords, callbackOf, h]
  | mouseButtonDown button =>
    have h := recorders_foldl names (.onMouseDown button) w
    simp only [StateEventListener.call] at h
    simp only [deliver, expectedRecords, callbackOf, h]
  | mouseButtonUp button =>
    have h := recorders_foldl names (.onMouseUp button) w
    simp only [StateEventListener.call] at h
    simp only [deliver, expectedRecords, callbackOf, h]
  | other type => simp [deliver, expectedRecords, callbackOf]

theorem deliverAll_recorders (names : List ℕ) (events : List SDL_Event) :
    ∀ w : Bool × List (ℕ × Callback),
      (deliverAll (names.map recorder) events w).2 =
        w.2 ++ events.flatMap (expectedRecords names) := by
  induction events with
  | nil =>
    intro w
    simp [deliverAll]
  | cons e es ih =>
    intro w
    have h := ih (deliver (names.map recorder) e w)
    simp only [deliverAll, List.foldl_cons] at h ⊢
    rw [h, deliver_recorders, List.flatMap_cons, List.append_assoc]

/-- C8: with the listeners `regs` registered in that order through `addInputEventListener`, one
`handleUserInput()` leaves the active flag and the scene as they are after, for the events in
arrival order, that event's callback (`onKeyDown(key)`, `onKeyUp(key)`, `onMouseDown(button)`,
`onMouseUp(button)`; none for quit and other events) has run on every listener in registration
order. Listeners that record their name and the call they receive end with exactly that
sequence of records; the call log of the loop is the same sequence by listener number; and with
L1, L2 registered in that order a key-down followed by a key-up runs L1.onKeyDown, L2.onKeyDown,
L1.onKeyUp, L2.onKeyUp. -/
theorem handleUserInput_calls {σ : Type} (regs : List (StateEventListener σ))
    (events : List SDL_Event) (fr : Frame σ) (names : List ℕ)
    (rec : Frame (List (ℕ × Callback))) (l1 l2 : StateEventListener σ) (k k2 : ℤ)
    (m m2 : ℕ) :
    ((handleUserInput (register regs) events fr).state.active,
      (handleUserInput (register regs) events fr).scene) =
        deliverAll regs events (fr.state.active, fr.scene) ∧
    (handleUserInput (register (names.map recorder)) events rec).scene =
      rec.scene ++ events.flatMap (expectedRecords names) ∧
    (handleUserInput (register regs) events fr).calls =
      fr.calls ++ events.flatMap (fanOut regs.length) ∧
    ((handleUserInput (addInputEventListener (addInputEventListener [] l1) l2)
        [.keyDown k m, .keyUp k2 m2] fr).state.active,
      (handleUserInput (addInputEventListener (addInputEventListener [] l1) l2)
        [.keyDown k m, .keyUp k2 m2] fr).scene) =
      l2.onKeyUp k2 (l1.onKeyUp k2 (l2.onKeyDown k (l1.onKeyDown k
        (fr.state.active, fr.scene)))) := by
  refine ⟨?_, ?_, ?_, ?_⟩
  · rw [register_eq, handleUserInput_effect]
  · have h := handleUserInput_effect (names.map recorder) events rec
    have h2 := congrArg Prod.snd h
    simp only at h2
    rw [register_eq, h2, deliverAll_recorders]
  · rw [register_eq, calls_of_handleUserInput]
  · rw [handleUserInput_effect]
    rfl

/-! ## Binary32 rounding -/

theorem roundHalfEven_err (x : ℚ) : |((roundHalfEven x : ℤ) : ℚ) - x| ≤ 1 / 2 := by
  have h1 : ((⌊x⌋ : ℤ) : ℚ) ≤ x := Int.floor_le x
  have h2 : x < ((⌊x⌋ : ℤ) : ℚ) + 1 := Int.lt_floor_add_one x
  unfold roundHalfEven
  rw [abs_le]
  split_ifs with ha hb hc
  · constructor <;> linarith
  · push_cast
    constructor <;> linarith
  · constructor <;> linarith
  · push_cast
    constructor <;> linarith

theorem roundHalfEven_eq_of_close (x : ℚ) (n : ℤ) (h : |x - (n : ℚ)| < 1 / 2) :
    roundHalfEven x = n := by
  rw [abs_lt] at h
  have h1 : ((⌊x⌋ : ℤ) : ℚ) ≤ x := Int.floor_le x
  have h2 : x < ((⌊x⌋ : ℤ) : ℚ) + 1 := Int.lt_floor_add_one x
  have hlo : (n : ℚ) - 2 < ((⌊x⌋ : ℤ) : ℚ) := by linarith
  have hhi : ((⌊x⌋ : ℤ) : ℚ) < (n : ℚ) + 1 := by linarith
  have hlo' : n - 2 < ⌊x⌋ := by exact_mod_cast hlo
  have hhi' : ⌊x⌋ < n + 1 := by exact_mod_cast hhi
  have hcase : ⌊x⌋ = n ∨ ⌊x⌋ = n - 1 := by omega
  unfold roundHalfEven
  rcases hcase with hf | hf
  · have : x - ((⌊x⌋ : ℤ) : ℚ) < 1 / 2 := by rw [hf]; linarith
    rw [if_pos this, hf]
  · have hfq : ((⌊x⌋ : ℤ) : ℚ) = (n : ℚ) - 1 := by rw [hf]; push_cast; ring
    have hn1 : ¬ (x - ((⌊x⌋ : ℤ) : ℚ) < 1 / 2) := by rw [hfq]; linarith
    have hn2 : 1 / 2 < x - ((⌊x⌋ : ℤ) : ℚ) := by rw [hfq]; linarith
    rw [if_neg hn1, if_pos hn2, hf]
    ring

theorem roundHalfEven_intCast (z : ℤ) : roundHalfEven (z : ℚ) = z :=
  roundHalfEven_eq_of_close _ z (by simp)

theorem roundHalfEven_nonneg (x : ℚ) (h : 0 ≤ x) : 0 ≤ roundHalfEven x := by
  have h0 : 0 ≤ ⌊x⌋ := Int.floor_nonneg.mpr h
  unfold roundHalfEven
  split_ifs <;> omega

theorem round32_zero : round32 0 = 0 := by
  have h : roundHalfEven (0 : ℚ) = 0 := by simpa using roundHalfEven_intCast 0
  unfold round32
  rw [zero_div, h]
  simp

theorem round32_nonneg (q : ℚ) (h : 0 ≤ q) : 0 ≤ round32 q := by
  unfold round32
  have hp : (0 : ℚ) < (2 : ℚ) ^ (max (Int.log 2 |q|) (-126) - 23) := by positivity
  have := roundHalfEven_nonneg (q / (2 : ℚ) ^ (max (Int.log 2 |q|) (-126) - 23))
    (div_nonneg h hp.le)
  have h2 : (0 : ℚ) ≤ (roundHalfEven (q / (2 : ℚ) ^ (max (Int.log 2 |q|) (-126) - 23)) : ℚ) := by
    exact_mod_cast this
  exact mul_nonneg h2 hp.le

/-- Rounding error of binary32: half a unit in the last place. -/
theorem round32_err (q : ℚ) : |round32 q - q| ≤ |q| / 2 ^ 24 + 1 / 2 ^ 150 := by
  by_cases hq : q = 0
  · subst hq
    rw [round32_zero]
    norm_num
  have habs : 0 < |q| := abs_pos.mpr hq
  set e := max (Int.log 2 |q|) (-126) with he
  have hp : (0 : ℚ) < (2 : ℚ) ^ (e - 23) := by positivity
  have herr := roundHalfEven_err (q / (2 : ℚ) ^ (e - 23))
  have hstep : |round32 q - q| ≤ (2 : ℚ) ^ (e - 23) / 2 := by
    have heq : round32 q - q =
        (((roundHalfEven (q / (2 : ℚ) ^ (e - 23)) : ℤ) : ℚ) - q / (2 : ℚ) ^ (e - 23))
          * (2 : ℚ) ^ (e - 23) := by
      unfold round32
      rw [← he]
      field_simp
    rw [heq, abs_mul, abs_of_pos hp]
    calc |((roundHalfEven (q / (2 : ℚ) ^ (e - 23)) : ℤ) : ℚ) - q / (2 : ℚ) ^ (e - 23)|
          * (2 : ℚ) ^ (e - 23) ≤ 1 / 2 * (2 : ℚ) ^ (e - 23) := by gcongr
      _ = (2 : ℚ) ^ (e - 23) / 2 := by ring
  have hsplit : (2 : ℚ) ^ (e - 23) / 2 = (2 : ℚ) ^ e / 2 ^ 24 := by
    rw [zpow_sub₀ (by norm_num : (2 : ℚ) ≠ 0)]
    norm_num
    ring
  rw [hsplit] at hstep
  have hcases : e = Int.log 2 |q| ∨ e = -126 := by
    rw [he]
    rcases le_total (Int.log 2 |q|) (-126) with h | h
    · right; exact max_eq_right h
    · left; exact max_eq_left h
  rcases hcases with h | h
  · have hle : (2 : ℚ) ^ e ≤ |q| := by
      rw [h]
      exact_mod_cast Int.zpow_log_le_self (b := 2) (by norm_num) habs
    calc |round32 q - q| ≤ (2 : ℚ) ^ e / 2 ^ 24 := hstep
      _ ≤ |q| / 2 ^ 24 := by gcongr
      _ ≤ |q| / 2 ^ 24 + 1 / 2 ^ 150 := by
        have : (0 : ℚ) ≤ 1 / 2 ^ 150 := by positivity
        linarith
  · have h150 : (2 : ℚ) ^ e / 2 ^ 24 = 1 / 2 ^ 150 := by
      rw [h]
      rw [zpow_neg, zpow_ofNat]
      norm_num
    calc |round32 q - q| ≤ (2 : ℚ) ^ e / 2 ^ 24 := hstep
      _ = 1 / 2 ^ 150 := h150
      _ ≤ |q| / 2 ^ 24 + 1 / 2 ^ 150 := by
        have : (0 : ℚ) ≤ |q| / 2 ^ 24 := by positivity
        linarith


/-- Integers below `2 ^ 24` in magnitude are binary32 values. -/
theorem round32_intCast (z : ℤ) (hz : |z| < 2 ^ 24) : round32 (z : ℚ) = (z : ℚ) := by
  by_cases h0 : z = 0
  · subst h0
    simpa using round32_zero
  have habs : (1 : ℚ) ≤ |(z : ℚ)| := by
    have : 1 ≤ |z| := Int.one_le_abs h0
    exact_mod_cast this
  have hpos : (0 : ℚ) < |(z : ℚ)| := by linarith
  have hlt : |(z : ℚ)| < (2 : ℚ) ^ (24 : ℤ) := by
    have : ((|z| : ℤ) : ℚ) < ((2 ^ 24 : ℤ) : ℚ) := by exact_mod_cast hz
    rw [Int.cast_abs] at this
    calc |(z : ℚ)| < ((2 ^ 24 : ℤ) : ℚ) := this
      _ = (2 : ℚ) ^ (24 : ℤ) := by norm_num
  have hlo : 0 ≤ Int.log 2 |(z : ℚ)| := by
    rw [← Int.zpow_le_iff_le_log (b := 2) (by norm_num) hpos]
    simpa using habs
  have hhi : Int.log 2 |(z : ℚ)| < 24 := by
    rw [← Int.lt_zpow_iff_log_lt (b := 2) (by norm_num) hpos]
    exact_mod_cast hlt
  obtain ⟨k, hk⟩ : ∃ k : ℕ, Int.log 2 |(z : ℚ)| - 23 = -(k : ℤ) :=
    ⟨(23 - Int.log 2 |(z : ℚ)|).toNat, by omega⟩
  have hulp : (2 : ℚ) ^ (max (Int.log 2 |(z : ℚ)|) (-126) - 23) = ((2 : ℚ) ^ k)⁻¹ := by
    rw [max_eq_left (by omega), hk, zpow_neg, zpow_natCast]
  have hquot : (z : ℚ) / ((2 : ℚ) ^ k)⁻¹ = ((z * 2 ^ k : ℤ) : ℚ) := by
    push_cast
    rw [div_inv_eq_mul]
  unfold round32
  rw [hulp, hquot, roundHalfEven_intCast]
  push_cast
  field_simp

theorem binary32_pixelToWorld_zero (state : BaseState) (dim : Fin 2) :
    Binary32.pixelToWorld state 0 dim = 0 := by
  simp [Binary32.pixelToWorld, round32_zero]

/-- The exact-arithmetic example of the lost coordinate is the same in binary32: world
coordinate 1 of 2000 maps to pixel 0 of 800 and comes back as 0. -/
theorem binary32_roundtrip_at_one :
    Binary32.worldToPixel sampleState 1 0 = 0 ∧
    Binary32.pixelToWorld sampleState (Binary32.worldToPixel sampleState 1 0) 0 = 0 := by
  have h800 : round32 ((800 : ℤ) : ℚ) = 800 := by
    simpa using round32_intCast 800 (by norm_num)
  have h0 : Binary32.worldToPixel sampleState 1 0 = 0 := by
    simp only [Binary32.worldToPixel, idx, sampleState, if_true, h800]
    have e1 := round32_err (1 / 2000)
    have n1 := round32_nonneg (1 / 2000) (by norm_num)
    rw [abs_le] at e1
    have a1 : |(1 / 2000 : ℚ)| = 1 / 2000 := abs_of_pos (by norm_num)
    rw [a1] at e1
    have n2 := round32_nonneg (round32 (1 / 2000) * 800) (mul_nonneg n1 (by norm_num))
    have e2 := round32_err (round32 (1 / 2000) * 800)
    rw [abs_le, abs_of_nonneg (mul_nonneg n1 (by norm_num))] at e2
    apply castInt_eq_of_bounds n2
    · simpa using n2
    · norm_num at e1 e2 ⊢
      linarith [e1.2, e2.2]
  exact ⟨h0, by rw [h0, binary32_pixelToWorld_zero]⟩

end BoidsSDL
